import Mathlib

/-!
# Callback dispatch of `AsyncWrap` (src/async-wrap-inl.h)

A shallow embedding of the inline member functions of `node::AsyncWrap`:
the constructor, `has_async_listener`, `MakeDomainCallback` and the
overloads of `MakeCallback`.

JavaScript functions (hooks, the callback, the tick callback) are external:
each one is a state transformer over the JavaScript heap `σ` and the tick
info, which either yields a value or lets an exception escape into the
enclosing `v8::TryCatch`.  Every call, domain property read and tick-info access
the C++ code performs is recorded in the trace of the run, in program order.
A function body is embedded as a chain of definitions, each one standing for
the statements from some line to the end of the body.

Each `->Call(...)` in the file is followed at once by its `HasCaught()` test,
and every test that finds an exception leaves the function, so a test sees an
exception exactly when the call just before it raised; `RunMicrotasks()` is
taken not to leave an exception in the try-catch.  The names `env`, `object`
and `process` in `MakeDomainCallback` are read as `env()`, `object()` and
`env()->process_object()`, as in `MakeCallback`.
-/

set_option linter.dupNamespace false
set_option linter.unnecessarySeqFocus false

namespace node

/-- JavaScript values, as far as the dispatcher tells them apart. -/
inductive Value
  | undefined
  | boolean (b : Bool)
  | number (n : Int)
  | object (id : Nat)
  deriving DecidableEq, Inhabited

/-- The test `v->IsTrue()`: the value is the boolean `true` itself. -/
def Value.IsTrue : Value → Bool
  | .boolean true => true
  | _ => false

/-- The fields of `Environment::TickInfo` the dispatcher reads and writes. -/
structure TickInfo where
  in_tick : Bool
  index : Nat
  last_threw : Bool
  length : Nat
  deriving DecidableEq

/-- What a call into JavaScript leaves behind: the heap, the tick info, and
the returned value (`none` when an exception escaped). -/
structure Reply (σ : Type) where
  heap : σ
  tick : TickInfo
  result : Option Value

/-- A JavaScript function: receiver, arguments, heap and tick info in, reply out. -/
abbrev JSFunction (σ : Type) := Value → List Value → σ → TickInfo → Reply σ

/-- The places in the file where `->Call(...)` is written. -/
inductive CallSite
  | async_listener_run_function
  | async_hooks_pre_function
  | enter
  | async_hooks_init_function
  | exit
  | async_hooks_post_function
  | tick_callback_function
  | async_listener_load_function
  | cb
  | async_listener_unload_function
  deriving DecidableEq

/-- The property names read from the domain object. -/
inductive DomainKey
  | disposed_string
  | enter_string
  | exit_string
  deriving DecidableEq

/-- One step of the dispatcher that is visible outside it. A `call` records the
call site, receiver, arguments and the outcome of the call (`none`: it raised). -/
inductive Event
  | call (site : CallSite) (recv : Value) (argv : List Value) (result : Option Value)
  | domain_get (key : DomainKey)
  | read_in_tick (b : Bool)
  | read_length (n : Nat)
  | RunMicrotasks
  | set_index (n : Nat)
  | set_in_tick (b : Bool)
  | set_last_threw (b : Bool)
  deriving DecidableEq

/-- Modelled from the spec: whether a resource is instrumented is one boolean
of the resource. The flag bit tested by `has_async_listener` is declared in
async-wrap.h (`enum AsyncFlags`), which is not among the sources; it is taken
to be bit 0. -/
def HAS_ASYNC_LISTENER : Nat := 1

/-- The data members of an `AsyncWrap` that the file touches, with `object()`
of its `BaseObject` base. -/
structure AsyncWrap where
  object : Value
  has_async_queue_ : Bool
  provider_type_ : Nat
  async_flags_ : Nat
  deriving DecidableEq

/-- The domain object `domain_v` refers to: the values its three properties
yield when the dispatcher reads them. `enter` and `exit` are `none` when the
property is not a function (`IsFunction()` is false). -/
structure Domain (σ : Type) where
  handle : Value
  disposed : Value
  enter : Option (JSFunction σ)
  exit : Option (JSFunction σ)

/-- The names `MakeDomainCallback` uses without declaring them: `parent`
(here the `object()` of the parent, `none` for `NULL`), `domain_v` (`none`
when it is not an object) and `ret`. The class declaration that would bind them
(async-wrap.h) is not part of the file, so they are inputs of the model. -/
structure DomainScope (σ : Type) where
  parent : Option Value
  domain_v : Option (Domain σ)
  ret : Value

/-- The accessors of `Environment` (and of its isolate) used by the file. -/
structure Environment (σ : Type) where
  context : Nat
  current_context : Nat
  call_async_init_hook : Bool
  using_domains : Bool
  process_object : Value
  async_listener_run_function : JSFunction σ
  async_listener_load_function : JSFunction σ
  async_listener_unload_function : JSFunction σ
  async_hooks_pre_function : JSFunction σ
  async_hooks_init_function : JSFunction σ
  async_hooks_post_function : JSFunction σ
  tick_callback_function : JSFunction σ
  RunMicrotasks : σ → TickInfo → σ × TickInfo

/-- The state a member function runs in: the object itself, the JavaScript
heap and the tick info. -/
structure State (σ : Type) where
  self : AsyncWrap
  heap : σ
  tick : TickInfo

/-- How an invocation of a member function ends: by a return statement; in
`FatalError(location, message)`, which ends the process; in a `CHECK` or
`CHECK_EQ` that does not hold, which ends the process too; or, `no_return`, at
the end of the statements of the body without a return statement. -/
inductive Completion
  | returned (v : Value)
  | fatal (location message : String)
  | check_failed
  | no_return
  deriving DecidableEq

/-- An invocation of a member function, run to its end: how it ended, the state
it left, and the trace of its steps in program order. -/
structure Run (σ : Type) where
  completion : Completion
  state : State σ
  trace : List Event

variable {σ : Type}

/-- The invocation ends here with completion `c` in state `s`. -/
def Run.done (c : Completion) (s : State σ) : Run σ :=
  { completion := c, state := s, trace := [] }

/-- The step `e` is taken, then the invocation goes on as `r`. -/
def emit (e : Event) (r : Run σ) : Run σ :=
  { r with trace := e :: r.trace }

/-- The state after `f->Call(recv, argc, argv)`, with the outcome of the call. -/
def State.Call (s : State σ) (f : JSFunction σ) (recv : Value) (argv : List Value) :
    Option Value × State σ :=
  let r := f recv argv s.heap s.tick
  (r.result, { s with heap := r.heap, tick := r.tick })

/-- The state after `env()->isolate()->RunMicrotasks()`. -/
def State.RunMicrotasks (s : State σ) (env : Environment σ) : State σ :=
  let r := env.RunMicrotasks s.heap s.tick
  { s with heap := r.1, tick := r.2 }

/-- The state after `tick_info->set_index(n)`. -/
def State.set_index (s : State σ) (n : Nat) : State σ :=
  { s with tick := { s.tick with index := n } }

/-- The state after `tick_info->set_in_tick(b)`. -/
def State.set_in_tick (s : State σ) (b : Bool) : State σ :=
  { s with tick := { s.tick with in_tick := b } }

/-- The state after `tick_info->set_last_threw(b)`. -/
def State.set_last_threw (s : State σ) (b : Bool) : State σ :=
  { s with tick := { s.tick with last_threw := b } }

/-- The member function `has_async_listener` (lines 65-67). -/
def has_async_listener (self : AsyncWrap) : Bool :=
  self.async_flags_ &&& HAS_ASYNC_LISTENER != 0

/-- The member function `provider_type` (lines 60-62). -/
def provider_type (self : AsyncWrap) : Nat :=
  self.provider_type_

/-- The constructor (lines 37-57): the object as constructed and the trace of
the constructor. `s.self` is the storage the object is built in: `async_flags_`
is not in the initializer list, so it keeps the value it has there unless the
body sets the listener bit. The `parent` argument is not used. -/
def AsyncWrap.AsyncWrap (env : Environment σ) (object : Value) (provider : Nat)
    (_parent : Option Value) (s : State σ) : State σ × List Event :=
  let s0 : State σ :=
    { s with self := { s.self with object := object, has_async_queue_ := false,
                                   provider_type_ := provider } }
  if !env.call_async_init_hook then (s0, [])
  else
    let c := s0.Call env.async_listener_run_function env.process_object [object]
    let tr := [Event.call CallSite.async_listener_run_function env.process_object [object] c.1]
    match c.1 with
    | some _ =>
      ({ c.2 with self := { c.2.self with
          async_flags_ := c.2.self.async_flags_ ||| HAS_ASYNC_LISTENER } }, tr)
    | none => (c.2, tr)

/-- Lines 141-157 of `MakeDomainCallback`: the second test of the queue
length, the tick callback and the test of the try-catch. -/
def MakeDomainCallback.tick_queue (env : Environment σ) (sc : DomainScope σ) (s : State σ) :
    Run σ :=
  emit (Event.read_length s.tick.length) <|
  if s.tick.length = 0 then
    emit (Event.set_index 0) <|
    Run.done (Completion.returned sc.ret) (s.set_index 0)
  else
    emit (Event.set_in_tick true) <|
    let c := (s.set_in_tick true).Call env.tick_callback_function env.process_object []
    emit (Event.call CallSite.tick_callback_function env.process_object [] c.1) <|
    emit (Event.set_in_tick false) <|
    match c.1 with
    | none =>
      emit (Event.set_last_threw true) <|
      Run.done (Completion.returned Value.undefined)
        ((c.2.set_in_tick false).set_last_threw true)
    | some _ => Run.done (Completion.returned sc.ret) (c.2.set_in_tick false)

/-- Lines 131-157 of `MakeDomainCallback`: the tick stage. -/
def MakeDomainCallback.tick (env : Environment σ) (sc : DomainScope σ) (s : State σ) :
    Run σ :=
  emit (Event.read_in_tick s.tick.in_tick) <|
  if s.tick.in_tick then Run.done (Completion.returned sc.ret) s
  else
    emit (Event.read_length s.tick.length) <|
    if s.tick.length = 0 then
      emit Event.RunMicrotasks <|
      MakeDomainCallback.tick_queue env sc (s.RunMicrotasks env)
    else MakeDomainCallback.tick_queue env sc s

/-- Lines 125-157 of `MakeDomainCallback`: the post hook of the parent, then
the tick stage. -/
def MakeDomainCallback.parent_post (env : Environment σ) (sc : DomainScope σ)
    (s : State σ) : Run σ :=
  match sc.parent with
  | none => MakeDomainCallback.tick env sc s
  | some parent_obj =>
    let c := s.Call env.async_hooks_post_function parent_obj []
    emit (Event.call CallSite.async_hooks_post_function parent_obj [] c.1) <|
    match c.1 with
    | none =>
      Run.done (Completion.fatal "node::AsyncWrap::AsyncWrap" "parent post hook threw") c.2
    | some _ => MakeDomainCallback.tick env sc c.2

/-- Line 123 of `MakeDomainCallback`, `has_async_queue_ = true`, and what follows. -/
def MakeDomainCallback.mark_queue (env : Environment σ) (sc : DomainScope σ)
    (s : State σ) : Run σ :=
  MakeDomainCallback.parent_post env sc
    { s with self := { s.self with has_async_queue_ := true } }

/-- Lines 113-157 of `MakeDomainCallback`: the exit hook of the domain, and
what follows. -/
def MakeDomainCallback.domain_exit (env : Environment σ) (sc : DomainScope σ)
    (s : State σ) : Run σ :=
  match sc.domain_v with
  | none => MakeDomainCallback.mark_queue env sc s
  | some domain =>
    emit (Event.domain_get DomainKey.exit_string) <|
    match domain.exit with
    | none => MakeDomainCallback.mark_queue env sc s
    | some exit =>
      let c := s.Call exit domain.handle []
      emit (Event.call CallSite.exit domain.handle [] c.1) <|
      match c.1 with
      | none => Run.done (Completion.returned Value.undefined) c.2
      | some _ => MakeDomainCallback.mark_queue env sc c.2

/-- Lines 107-157 of `MakeDomainCallback`: the init hook, called on `object`,
and what follows. No statement of the function calls `cb`. -/
def MakeDomainCallback.init_hook (env : Environment σ) (sc : DomainScope σ)
    (s : State σ) : Run σ :=
  let c := s.Call env.async_hooks_init_function s.self.object []
  emit (Event.call CallSite.async_hooks_init_function s.self.object [] c.1) <|
  match c.1 with
  | none => Run.done (Completion.returned Value.undefined) c.2
  | some _ => MakeDomainCallback.domain_exit env sc c.2

/-- Lines 91-157 of `MakeDomainCallback`: the disposed test and the enter
hook of the domain, and what follows. -/
def MakeDomainCallback.domain_enter (env : Environment σ) (sc : DomainScope σ)
    (s : State σ) : Run σ :=
  match sc.domain_v with
  | none => MakeDomainCallback.init_hook env sc s
  | some domain =>
    emit (Event.domain_get DomainKey.disposed_string) <|
    if domain.disposed.IsTrue then Run.done (Completion.returned Value.undefined) s
    else
      emit (Event.domain_get DomainKey.enter_string) <|
      match domain.enter with
      | none => MakeDomainCallback.init_hook env sc s
      | some enter =>
        let c := s.Call enter domain.handle []
        emit (Event.call CallSite.enter domain.handle [] c.1) <|
        match c.1 with
        | none => Run.done (Completion.returned Value.undefined) c.2
        | some _ => MakeDomainCallback.init_hook env sc c.2

/-- Lines 84-157 of `MakeDomainCallback`: the pre hook of the parent, and
what follows. -/
def MakeDomainCallback.parent_pre (env : Environment σ) (sc : DomainScope σ)
    (s : State σ) : Run σ :=
  match sc.parent with
  | none => MakeDomainCallback.domain_enter env sc s
  | some parent_obj =>
    let c := s.Call env.async_hooks_pre_function parent_obj []
    emit (Event.call CallSite.async_hooks_pre_function parent_obj [] c.1) <|
    match c.1 with
    | none => Run.done (Completion.returned Value.undefined) c.2
    | some _ => MakeDomainCallback.domain_enter env sc c.2

/-- The member function `MakeDomainCallback` (lines 71-158). Its parameters `cb`
and `argv` occur nowhere in its body. -/
def MakeDomainCallback (env : Environment σ) (sc : DomainScope σ) (_cb : JSFunction σ)
    (_argv : List Value) (s : State σ) : Run σ :=
  if env.context ≠ env.current_context then Run.done Completion.check_failed s
  else MakeDomainCallback.parent_pre env sc s

/-- Lines 208-217 of `MakeCallback`: the second test of the queue length and
the tick callback. The statements of the function end with `set_in_tick(false)`:
neither a test of the try-catch nor a return statement follows. -/
def MakeCallback.tick_queue (env : Environment σ) (ret : Value) (s : State σ) : Run σ :=
  emit (Event.read_length s.tick.length) <|
  if s.tick.length = 0 then
    emit (Event.set_index 0) <|
    Run.done (Completion.returned ret) (s.set_index 0)
  else
    emit (Event.set_in_tick true) <|
    let c := (s.set_in_tick true).Call env.tick_callback_function env.process_object []
    emit (Event.call CallSite.tick_callback_function env.process_object [] c.1) <|
    emit (Event.set_in_tick false) <|
    Run.done Completion.no_return (c.2.set_in_tick false)

/-- Lines 198-217 of `MakeCallback`: the tick stage. -/
def MakeCallback.tick (env : Environment σ) (ret : Value) (s : State σ) : Run σ :=
  emit (Event.read_in_tick s.tick.in_tick) <|
  if s.tick.in_tick then Run.done (Completion.returned ret) s
  else
    emit (Event.read_length s.tick.length) <|
    if s.tick.length = 0 then
      emit Event.RunMicrotasks <|
      MakeCallback.tick_queue env ret (s.RunMicrotasks env)
    else MakeCallback.tick_queue env ret s

/-- Lines 190-217 of `MakeCallback`: the unload hook of the listener, then the
tick stage. -/
def MakeCallback.unload (env : Environment σ) (ret : Value) (s : State σ) : Run σ :=
  if has_async_listener s.self then
    let c := s.Call env.async_listener_unload_function env.process_object [s.self.object]
    emit (Event.call CallSite.async_listener_unload_function env.process_object
      [s.self.object] c.1) <|
    match c.1 with
    | none => Run.done (Completion.returned Value.undefined) c.2
    | some _ => MakeCallback.tick env ret c.2
  else MakeCallback.tick env ret s

/-- Lines 184-217 of `MakeCallback`: the call of `cb`, and what follows. -/
def MakeCallback.invoke (env : Environment σ) (cb : JSFunction σ) (argv : List Value)
    (s : State σ) : Run σ :=
  let c := s.Call cb s.self.object argv
  emit (Event.call CallSite.cb s.self.object argv c.1) <|
  match c.1 with
  | none => Run.done (Completion.returned Value.undefined) c.2
  | some ret => MakeCallback.unload env ret c.2

/-- Lines 176-217 of `MakeCallback`: the load hook of the listener, and what
follows. -/
def MakeCallback.load (env : Environment σ) (cb : JSFunction σ) (argv : List Value)
    (s : State σ) : Run σ :=
  if has_async_listener s.self then
    let c := s.Call env.async_listener_load_function env.process_object [s.self.object]
    emit (Event.call CallSite.async_listener_load_function env.process_object
      [s.self.object] c.1) <|
    match c.1 with
    | none => Run.done (Completion.returned Value.undefined) c.2
    | some _ => MakeCallback.invoke env cb argv c.2
  else MakeCallback.invoke env cb argv s

/-- The member function `MakeCallback(cb, argc, argv)` (lines 161-217). -/
def MakeCallback (env : Environment σ) (sc : DomainScope σ) (cb : JSFunction σ)
    (argv : List Value) (s : State σ) : Run σ :=
  if env.using_domains then MakeDomainCallback env sc cb argv s
  else if env.context ≠ env.current_context then Run.done Completion.check_failed s
  else MakeCallback.load env cb argv s

/-- What `object()->Get(key)` yields: a function, or some other value. -/
inductive Property (σ : Type)
  | function (f : JSFunction σ)
  | other (v : Value)

/-- The keys `object()->Get` is called with: a string or an index. -/
inductive Key
  | symbol (name : String)
  | index (i : Nat)
  deriving DecidableEq

/-- The overload `MakeCallback(symbol, argc, argv)` (lines 225-234); `Get` is the
property lookup on `object()`. -/
def MakeCallback.by_symbol (env : Environment σ) (sc : DomainScope σ)
    (Get : Key → Property σ) (symbol : String) (argv : List Value) (s : State σ) : Run σ :=
  match Get (Key.symbol symbol) with
  | .function cb => MakeCallback env sc cb argv s
  | .other _ => Run.done Completion.check_failed s

/-- The overload `MakeCallback(index, argc, argv)` (lines 237-246); `Get` is the
property lookup on `object()`. -/
def MakeCallback.by_index (env : Environment σ) (sc : DomainScope σ)
    (Get : Key → Property σ) (index : Nat) (argv : List Value) (s : State σ) : Run σ :=
  match Get (Key.index index) with
  | .function cb => MakeCallback env sc cb argv s
  | .other _ => Run.done Completion.check_failed s

/-- The call site of an event, if the event is a call. -/
def Event.site : Event → Option CallSite
  | .call site _ _ _ => some site
  | _ => none

/-- The call sites of a trace, in program order. -/
def calls (tr : List Event) : List CallSite :=
  tr.filterMap Event.site

/-- The events of the tick stage: the tick-info reads and writes, the microtask
run and the call of the tick callback. -/
def Event.is_tick_step : Event → Bool
  | .call CallSite.tick_callback_function _ _ _ => true
  | .read_in_tick _ => true
  | .read_length _ => true
  | .RunMicrotasks => true
  | .set_index _ => true
  | .set_in_tick _ => true
  | .set_last_threw _ => true
  | _ => false

/-! ## Concrete inputs -/

/-- A JavaScript function that returns `v` and changes nothing. -/
def returning (v : Value) : JSFunction Unit :=
  fun _ _ h t => { heap := h, tick := t, result := some v }

/-- A JavaScript function that raises and changes nothing. -/
def raising : JSFunction Unit :=
  fun _ _ h t => { heap := h, tick := t, result := none }

/-- A tick callback that runs the whole queue and returns. -/
def draining : JSFunction Unit :=
  fun _ _ h t => { heap := h, tick := { t with index := 0, length := 0 }, result := some Value.undefined }

/-- An environment outside domains whose hooks all return `undefined`. -/
def plain_env : Environment Unit where
  context := 1
  current_context := 1
  call_async_init_hook := false
  using_domains := false
  process_object := Value.object 0
  async_listener_run_function := returning Value.undefined
  async_listener_load_function := returning Value.undefined
  async_listener_unload_function := returning Value.undefined
  async_hooks_pre_function := returning Value.undefined
  async_hooks_init_function := returning Value.undefined
  async_hooks_post_function := returning Value.undefined
  tick_callback_function := draining
  RunMicrotasks := fun h t => (h, t)

/-- A resource without listener, whose object is object 1. -/
def plain_wrap : AsyncWrap where
  object := Value.object 1
  has_async_queue_ := false
  provider_type_ := 0
  async_flags_ := 0

/-- The tick info outside a drain, with `n` entries queued. -/
def idle_tick (n : Nat) : TickInfo where
  in_tick := false
  index := 0
  last_threw := false
  length := n

/-- The state before a dispatch on `plain_wrap`, with `n` entries queued. -/
def idle_state (n : Nat) : State Unit where
  self := plain_wrap
  heap := ()
  tick := idle_tick n

/-- No parent, no domain; `ret` is `undefined`. -/
def bare_scope : DomainScope Unit where
  parent := none
  domain_v := none
  ret := Value.undefined

/-- A domain (object 3) with the given `disposed` value and hooks. -/
def sample_domain (disposed : Value) (enter exit : Option (JSFunction Unit)) : Domain Unit where
  handle := Value.object 3
  disposed := disposed
  enter := enter
  exit := exit

/-- An environment inside domains whose hooks all return `undefined`. -/
def domain_env : Environment Unit :=
  { plain_env with using_domains := true }

/-- A parent (object 2) and a disposed domain whose hooks would return. -/
def disposed_scope : DomainScope Unit where
  parent := some (Value.object 2)
  domain_v := some (sample_domain (Value.boolean true)
    (some (returning Value.undefined)) (some (returning Value.undefined)))
  ret := Value.undefined

/-- A parent (object 2) and no domain. -/
def parent_scope : DomainScope Unit where
  parent := some (Value.object 2)
  domain_v := none
  ret := Value.undefined

/-- An environment inside domains whose post hook raises. -/
def post_raising_env : Environment Unit :=
  { domain_env with async_hooks_post_function := raising }

/-- A parent (object 2) and a live domain whose enter hook returns and whose
exit hook raises. -/
def exit_raising_scope : DomainScope Unit where
  parent := some (Value.object 2)
  domain_v := some (sample_domain (Value.boolean false)
    (some (returning Value.undefined)) (some raising))
  ret := Value.undefined

/-- A live domain with enter and exit hooks that return; no parent. -/
def live_scope : DomainScope Unit where
  parent := none
  domain_v := some (sample_domain (Value.boolean false)
    (some (returning Value.undefined)) (some (returning Value.undefined)))
  ret := Value.undefined

/-- An environment inside domains whose init hook raises. -/
def init_raising_env : Environment Unit :=
  { domain_env with async_hooks_init_function := raising }

/-- An environment in which the init-hook flag and domains have been switched on. -/
def listening_env : Environment Unit :=
  { plain_env with call_async_init_hook := true, using_domains := true }

/-- The state of a dispatch nested in a drain: `in_tick` is set, two entries
are queued. -/
def nested_state : State Unit :=
  { idle_state 0 with
    tick := { in_tick := true, index := 1, last_threw := false, length := 2 } }

/-- No parent, no domain; `ret` is the number 7. -/
def ret_scope : DomainScope Unit :=
  { bare_scope with ret := Value.number 7 }

/-- An environment outside domains whose tick callback raises. -/
def tick_raising_env : Environment Unit :=
  { plain_env with tick_callback_function := raising }

/-- A resource with listener, whose object is object 1. -/
def listener_wrap : AsyncWrap where
  object := Value.object 1
  has_async_queue_ := false
  provider_type_ := 0
  async_flags_ := HAS_ASYNC_LISTENER

/-- The state before a dispatch on `listener_wrap`, with `n` entries queued. -/
def listener_state (n : Nat) : State Unit where
  self := listener_wrap
  heap := ()
  tick := idle_tick n

/-- An object whose property `"onread"` and whose element 0 are the function
returning 42, and whose other properties are `undefined`. -/
def sample_Get : Key → Property Unit
  | Key.symbol "onread" => Property.function (returning (Value.number 42))
  | Key.index 0 => Property.function (returning (Value.number 42))
  | _ => Property.other Value.undefined

/-- An environment outside domains whose unload hook raises. -/
def unload_raising_env : Environment Unit :=
  { plain_env with async_listener_unload_function := raising }

/-- An environment inside domains whose pre hook raises. -/
def pre_raising_env : Environment Unit :=
  { domain_env with async_hooks_pre_function := raising }

/-- An environment outside domains whose load hook raises. -/
def load_raising_env : Environment Unit :=
  { plain_env with async_listener_load_function := raising }

/-- An environment whose microtask run puts one entry into the queue. -/
def microtask_env : Environment Unit :=
  { plain_env with RunMicrotasks := fun h t => (h, { t with length := t.length + 1 }) }

/-- An environment in which the init-hook flag is on and the init listener raises. -/
def listener_raising_env : Environment Unit :=
  { plain_env with call_async_init_hook := true, async_listener_run_function := raising }

/-! ## The deferred work queue, from the spec

The tick callback is JavaScript of the repository that is not among the
sources; the file only calls it. What it does with the queue is taken from
the spec (section 3, `DeferredWorkQueue`, and section 4.3, steps 4 and 5). -/

/-- Modelled from the spec: "`entries`: ordered sequence of zero-argument
deferred callbacks". A sequence of entries; each entry has an identity, may
raise when it runs, and comes with the sequence of entries it inserts into the
queue when it runs. -/
inductive Entries
  | nil
  | cons (id : Nat) (raises : Bool) (inserts : Entries) (rest : Entries)
  deriving DecidableEq

/-- The entries of `a` followed by the entries of `b`. -/
def Entries.append : Entries → Entries → Entries
  | .nil, b => b
  | .cons id raises inserts rest, b => .cons id raises inserts (rest.append b)

/-- The identities of the entries of a sequence, in order. -/
def Entries.ids : Entries → List Nat
  | .nil => []
  | .cons id _ _ rest => id :: rest.ids

/-- The number of entries of a sequence. -/
def Entries.count : Entries → Nat
  | .nil => 0
  | .cons _ _ _ rest => rest.count + 1

/-- The number of entries of a sequence, with all the entries they insert. -/
def Entries.size : Entries → Nat
  | .nil => 0
  | .cons _ _ inserts rest => inserts.size + rest.size + 1

/-- No entry of the sequence raises, nor does any entry they insert. -/
def Entries.quiet : Entries → Bool
  | .nil => true
  | .cons _ raises inserts rest => !raises && inserts.quiet && rest.quiet

/-- Modelled from the spec: the deferred work queue, "insertion order = execution
order (strict FIFO)": the pending entries in insertion order, with two records:
the identities of all entries in the order they were inserted, and the
identities of the entries run so far, in the order they ran. -/
structure DeferredQueue where
  entries : Entries
  inserted : List Nat
  executed : List Nat
  deriving DecidableEq

/-- Inserting the entries `es` at the end of the queue. -/
def DeferredQueue.insert (h : DeferredQueue) (es : Entries) : DeferredQueue :=
  { h with entries := h.entries.append es, inserted := h.inserted ++ es.ids }

/-- Modelled from the spec: section 4.3, steps 4 and 5, "execute queued entries
in strict FIFO order, synchronously, one at a time, until the queue is
exhausted. If any entry raises, [...] stop draining further entries
immediately". The first entry is taken off the queue and run; what it inserts
goes to the end of the queue. The result is the queue left behind and whether an
entry raised. `fuel` bounds the number of entries run. -/
def run_entries : Nat → DeferredQueue → DeferredQueue × Bool
  | 0, h => (h, false)
  | fuel + 1, h =>
    match h.entries with
    | .nil => (h, false)
    | .cons id raises inserts rest =>
      let h1 : DeferredQueue :=
        { h with entries := rest, executed := h.executed ++ [id] }
      if raises then (h1, true) else run_entries fuel (h1.insert inserts)

/-- Modelled from the spec: the tick callback runs the pending entries
(`run_entries`, with fuel for all of them and all they insert) and raises when
an entry raised. The spec names the read index and the length of the queue but
does not say what the callback leaves in them: here `index` is left at 0 and
`length` at the number of entries still pending. -/
def tick_callback : JSFunction DeferredQueue :=
  fun _ _ h t =>
    let r := run_entries (h.entries.size + 1) h
    { heap := r.1,
      tick := { t with index := 0, length := r.1.entries.count },
      result := if r.2 then none else some Value.undefined }

/-- A JavaScript function that inserts the entries `es` into the queue and
returns `undefined`. -/
def inserting (es : Entries) : JSFunction DeferredQueue :=
  fun _ _ h t =>
    { heap := h.insert es,
      tick := { t with length := t.length + es.count },
      result := some Value.undefined }

/-- A JavaScript function that returns `undefined` and leaves the queue alone. -/
def idling : JSFunction DeferredQueue :=
  fun _ _ h t => { heap := h, tick := t, result := some Value.undefined }

/-- An environment over the deferred work queue whose tick callback is the one
of the spec, whose init hook inserts `es` and whose other hooks and microtask
run leave the queue alone. -/
def queue_env (using_domains : Bool) (es : Entries) : Environment DeferredQueue where
  context := 1
  current_context := 1
  call_async_init_hook := false
  using_domains := using_domains
  process_object := Value.object 0
  async_listener_run_function := idling
  async_listener_load_function := idling
  async_listener_unload_function := idling
  async_hooks_pre_function := idling
  async_hooks_init_function := inserting es
  async_hooks_post_function := idling
  tick_callback_function := tick_callback
  RunMicrotasks := fun h t => (h, t)

/-- The state before a top-level dispatch on `self` with the entries `q` pending,
all of them recorded as inserted and none as run. -/
def queue_state (self : AsyncWrap) (q : Entries) : State DeferredQueue where
  self := self
  heap := { entries := q, inserted := q.ids, executed := [] }
  tick := idle_tick q.count

/-- The entries `d1` then `d2` (identities 1 and 2), which insert nothing and
do not raise. -/
def d1_d2 : Entries :=
  Entries.cons 1 false Entries.nil (Entries.cons 2 false Entries.nil Entries.nil)

/-- No parent, no domain, over the deferred work queue; `ret` is `undefined`. -/
def bare_queue_scope : DomainScope DeferredQueue where
  parent := none
  domain_v := none
  ret := Value.undefined

/-! ## The trace of a run

Proofs about a whole dispatch go through the chain of definitions of its body
from the last statements backwards. -/

@[simp] theorem emit_trace (e : Event) (r : Run σ) : (emit e r).trace = e :: r.trace := rfl

@[simp] theorem emit_completion (e : Event) (r : Run σ) :
    (emit e r).completion = r.completion := rfl

@[simp] theorem emit_state (e : Event) (r : Run σ) : (emit e r).state = r.state := rfl

@[simp] theorem done_trace (c : Completion) (s : State σ) : (Run.done c s).trace = [] := rfl

@[simp] theorem done_completion (c : Completion) (s : State σ) :
    (Run.done c s).completion = c := rfl

@[simp] theorem done_state (c : Completion) (s : State σ) : (Run.done c s).state = s := rfl

@[simp] theorem calls_nil : calls [] = [] := rfl

@[simp] theorem calls_cons_call (site : CallSite) (recv : Value) (argv : List Value)
    (res : Option Value) (tr : List Event) :
    calls (Event.call site recv argv res :: tr) = site :: calls tr := rfl

@[simp] theorem calls_cons_domain_get (k : DomainKey) (tr : List Event) :
    calls (Event.domain_get k :: tr) = calls tr := rfl

@[simp] theorem calls_cons_read_in_tick (b : Bool) (tr : List Event) :
    calls (Event.read_in_tick b :: tr) = calls tr := rfl

@[simp] theorem calls_cons_read_length (n : Nat) (tr : List Event) :
    calls (Event.read_length n :: tr) = calls tr := rfl

@[simp] theorem calls_cons_RunMicrotasks (tr : List Event) :
    calls (Event.RunMicrotasks :: tr) = calls tr := rfl

@[simp] theorem calls_cons_set_index (n : Nat) (tr : List Event) :
    calls (Event.set_index n :: tr) = calls tr := rfl

@[simp] theorem calls_cons_set_in_tick (b : Bool) (tr : List Event) :
    calls (Event.set_in_tick b :: tr) = calls tr := rfl

@[simp] theorem calls_cons_set_last_threw (b : Bool) (tr : List Event) :
    calls (Event.set_last_threw b :: tr) = calls tr := rfl

/-- Every step of lines 141-157 of `MakeDomainCallback` is a step of the tick stage. -/
theorem MakeDomainCallback.domain_tick_queue_steps (env : Environment σ) (sc : DomainScope σ)
    (s : State σ) :
    ∀ e ∈ (MakeDomainCallback.tick_queue env sc s).trace, e.is_tick_step = true := by
  unfold MakeDomainCallback.tick_queue
  split
  · simp [Event.is_tick_step]
  · simp only [emit_trace]
    split <;> simp [Event.is_tick_step]

/-- Every step of the tick stage of `MakeDomainCallback` is a step of the tick stage. -/
theorem MakeDomainCallback.domain_tick_steps (env : Environment σ) (sc : DomainScope σ)
    (s : State σ) :
    ∀ e ∈ (MakeDomainCallback.tick env sc s).trace, e.is_tick_step = true := by
  have h := MakeDomainCallback.domain_tick_queue_steps env sc
  unfold MakeDomainCallback.tick
  split
  · simp [Event.is_tick_step]
  · split <;> simp [Event.is_tick_step] <;> exact h _

/-- Every step of lines 208-217 of `MakeCallback` is a step of the tick stage. -/
theorem MakeCallback.plain_tick_queue_steps (env : Environment σ) (ret : Value) (s : State σ) :
    ∀ e ∈ (MakeCallback.tick_queue env ret s).trace, e.is_tick_step = true := by
  unfold MakeCallback.tick_queue
  split <;> simp [Event.is_tick_step]

/-- Every step of the tick stage of `MakeCallback` is a step of the tick stage. -/
theorem MakeCallback.plain_tick_steps (env : Environment σ) (ret : Value) (s : State σ) :
    ∀ e ∈ (MakeCallback.tick env ret s).trace, e.is_tick_step = true := by
  have h := MakeCallback.plain_tick_queue_steps env ret
  unfold MakeCallback.tick
  split
  · simp [Event.is_tick_step]
  · split <;> simp [Event.is_tick_step] <;> exact h _

/-- No run of `MakeDomainCallback` calls `cb`: the function has no such statement. -/
theorem MakeDomainCallback.never_calls_cb (env : Environment σ) (sc : DomainScope σ)
    (cb : JSFunction σ) (argv : List Value) (s : State σ) :
    CallSite.cb ∉ calls (MakeDomainCallback env sc cb argv s).trace := by
  have h0 : ∀ s, CallSite.cb ∉ calls (MakeDomainCallback.tick_queue env sc s).trace := by
    intro s
    unfold MakeDomainCallback.tick_queue
    split
    · simp
    · simp only [emit_trace]
      split <;> simp
  have h1 : ∀ s, CallSite.cb ∉ calls (MakeDomainCallback.tick env sc s).trace := by
    intro s
    unfold MakeDomainCallback.tick
    split
    · simp
    · split <;> simp <;> exact h0 _
  have h2 : ∀ s, CallSite.cb ∉ calls (MakeDomainCallback.parent_post env sc s).trace := by
    intro s
    unfold MakeDomainCallback.parent_post
    split
    · exact h1 _
    · simp only [emit_trace]
      split <;> simp <;> exact h1 _
  have h3 : ∀ s, CallSite.cb ∉ calls (MakeDomainCallback.domain_exit env sc s).trace := by
    intro s
    unfold MakeDomainCallback.domain_exit MakeDomainCallback.mark_queue
    split
    · exact h2 _
    · simp only [emit_trace]
      split
      · simp; exact h2 _
      · simp only [emit_trace]
        split <;> simp <;> exact h2 _
  have h4 : ∀ s, CallSite.cb ∉ calls (MakeDomainCallback.init_hook env sc s).trace := by
    intro s
    unfold MakeDomainCallback.init_hook
    simp only [emit_trace]
    split <;> simp <;> exact h3 _
  have h5 : ∀ s, CallSite.cb ∉ calls (MakeDomainCallback.domain_enter env sc s).trace := by
    intro s
    unfold MakeDomainCallback.domain_enter
    split
    · exact h4 _
    · simp only [emit_trace]
      split
      · simp
      · simp only [emit_trace]
        split
        · simp; exact h4 _
        · simp only [emit_trace]
          split <;> simp <;> exact h4 _
  unfold MakeDomainCallback MakeDomainCallback.parent_pre
  split
  · simp
  · split
    · exact h5 _
    · simp only [emit_trace]
      split <;> simp <;> exact h5 _


/-- After line 123 `MakeDomainCallback` only calls the post hook of the parent
and takes steps of the tick stage. -/
theorem MakeDomainCallback.parent_post_steps (env : Environment σ) (sc : DomainScope σ)
    (s : State σ) :
    ∀ e ∈ (MakeDomainCallback.parent_post env sc s).trace,
      e.is_tick_step = true ∨ e.site = some CallSite.async_hooks_post_function := by
  have h := MakeDomainCallback.domain_tick_steps env sc
  unfold MakeDomainCallback.parent_post
  split
  · intro e he
    exact Or.inl (h _ e he)
  · simp only [emit_trace]
    split
    · simp [Event.site]
    · intro e he
      rcases List.mem_cons.mp he with rfl | he
      · exact Or.inr rfl
      · exact Or.inl (h _ e he)

/-- After the call of `cb`, `MakeCallback` only calls the unload hook and takes
steps of the tick stage. -/
theorem MakeCallback.unload_steps (env : Environment σ) (ret : Value) (s : State σ) :
    ∀ e ∈ (MakeCallback.unload env ret s).trace,
      e.is_tick_step = true ∨ e.site = some CallSite.async_listener_unload_function := by
  have h := MakeCallback.plain_tick_steps env ret
  unfold MakeCallback.unload
  split
  · simp only [emit_trace]
    split
    · simp [Event.site]
    · intro e he
      rcases List.mem_cons.mp he with rfl | he
      · exact Or.inr rfl
      · exact Or.inl (h _ e he)
  · intro e he
    exact Or.inl (h _ e he)

theorem mem_calls_cons (x : CallSite) (e : Event) (tr : List Event) :
    x ∈ calls (e :: tr) ↔ e.site = some x ∨ x ∈ calls tr := by
  cases e <;> simp [calls, Event.site, eq_comm]

@[simp] theorem State.Call_self (s : State σ) (f : JSFunction σ) (recv : Value)
    (argv : List Value) : (s.Call f recv argv).2.self = s.self := rfl

/-- A tick stage entered with `in_tick` set ends at once, on the domain path:
`ret` is returned, the state is left as it was. -/
theorem MakeDomainCallback.domain_tick_nested (env : Environment σ) (sc : DomainScope σ)
    (s : State σ) (h : s.tick.in_tick = true) :
    MakeDomainCallback.tick env sc s =
      emit (Event.read_in_tick true) (Run.done (Completion.returned sc.ret) s) := by
  simp [MakeDomainCallback.tick, h]

/-- A tick stage entered with `in_tick` set ends at once, outside domains:
`ret` is returned, the state is left as it was. -/
theorem MakeCallback.plain_tick_nested (env : Environment σ) (ret : Value)
    (s : State σ) (h : s.tick.in_tick = true) :
    MakeCallback.tick env ret s =
      emit (Event.read_in_tick true) (Run.done (Completion.returned ret) s) := by
  simp [MakeCallback.tick, h]

/-- On the domain path a tick callback that raises makes the dispatch set
`last_threw` and return `undefined`. -/
theorem MakeDomainCallback.tick_raise (env : Environment σ) (sc : DomainScope σ)
    (cb : JSFunction σ) (argv : List Value) (s : State σ) (recv : Value) (av : List Value)
    (h : Event.call CallSite.tick_callback_function recv av none ∈
      (MakeDomainCallback env sc cb argv s).trace) :
    (MakeDomainCallback env sc cb argv s).completion = Completion.returned Value.undefined ∧
    (MakeDomainCallback env sc cb argv s).state.tick.last_threw = true := by
  revert h
  let P : Run σ → Prop := fun r =>
    Event.call CallSite.tick_callback_function recv av none ∈ r.trace →
      r.completion = Completion.returned Value.undefined ∧ r.state.tick.last_threw = true
  show P _
  have hdone : ∀ c (s : State σ), P (Run.done c s) := by
    intro c s h
    simp at h
  have hemit : ∀ e (r : Run σ),
      e ≠ Event.call CallSite.tick_callback_function recv av none → P r → P (emit e r) := by
    intro e r hne hP h
    simp only [emit_trace, List.mem_cons] at h
    rcases h with h | h
    · exact absurd h.symm hne
    · exact hP h
  have d0 : ∀ s, P (MakeDomainCallback.tick_queue env sc s) := by
    intro s
    show _ ∈ _ → _
    unfold MakeDomainCallback.tick_queue
    split
    · simp
    · dsimp only
      split
      · simp [State.set_last_threw]
      · simp [*]
  have d1 : ∀ s, P (MakeDomainCallback.tick env sc s) := by
    intro s
    unfold MakeDomainCallback.tick
    repeat' first
      | exact d0 _
      | exact hdone _ _
      | apply hemit _ _ (by simp)
      | split
  have d2 : ∀ s, P (MakeDomainCallback.parent_post env sc s) := by
    intro s
    unfold MakeDomainCallback.parent_post
    repeat' first
      | exact d1 _
      | exact hdone _ _
      | apply hemit _ _ (by simp)
      | split
  have d3 : ∀ s, P (MakeDomainCallback.domain_exit env sc s) := by
    intro s
    unfold MakeDomainCallback.domain_exit MakeDomainCallback.mark_queue
    repeat' first
      | exact d2 _
      | exact hdone _ _
      | apply hemit _ _ (by simp)
      | split
  have d4 : ∀ s, P (MakeDomainCallback.init_hook env sc s) := by
    intro s
    unfold MakeDomainCallback.init_hook
    repeat' first
      | exact d3 _
      | exact hdone _ _
      | apply hemit _ _ (by simp)
      | split
  have d5 : ∀ s, P (MakeDomainCallback.domain_enter env sc s) := by
    intro s
    unfold MakeDomainCallback.domain_enter
    repeat' first
      | exact d4 _
      | exact hdone _ _
      | apply hemit _ _ (by simp)
      | split
  unfold MakeDomainCallback MakeDomainCallback.parent_pre
  repeat' first
    | exact d5 _
    | exact hdone _ _
    | apply hemit _ _ (by simp)
    | split

/-- A constructor run while `call_async_init_hook` is false calls nothing and
leaves `async_flags_` as it found it. -/
theorem AsyncWrap.constructed_without_hook (env : Environment σ) (object : Value)
    (provider : Nat) (parent : Option Value) (s : State σ)
    (h : env.call_async_init_hook = false) :
    (AsyncWrap.AsyncWrap env object provider parent s).2 = [] ∧
    (AsyncWrap.AsyncWrap env object provider parent s).1.self.async_flags_ =
      s.self.async_flags_ := by
  simp [AsyncWrap.AsyncWrap, h]

/-- No dispatch changes `async_flags_`, on either path. -/
theorem MakeCallback.keeps_async_flags (env : Environment σ) (sc : DomainScope σ)
    (cb : JSFunction σ) (argv : List Value) (s : State σ) :
    (MakeCallback env sc cb argv s).state.self.async_flags_ = s.self.async_flags_ ∧
    (MakeDomainCallback env sc cb argv s).state.self.async_flags_ = s.self.async_flags_ := by
  have d0 : ∀ s, (MakeDomainCallback.tick_queue env sc s).state.self.async_flags_ =
      s.self.async_flags_ := by
    intro s
    unfold MakeDomainCallback.tick_queue
    split
    · rfl
    · dsimp only
      split <;> rfl
  have d1 : ∀ s, (MakeDomainCallback.tick env sc s).state.self.async_flags_ =
      s.self.async_flags_ := by
    intro s
    unfold MakeDomainCallback.tick
    split
    · rfl
    · split
      · exact d0 _
      · exact d0 _
  have d2 : ∀ s, (MakeDomainCallback.parent_post env sc s).state.self.async_flags_ =
      s.self.async_flags_ := by
    intro s
    unfold MakeDomainCallback.parent_post
    split
    · exact d1 _
    · dsimp only
      split
      · rfl
      · exact d1 _
  have d3 : ∀ s, (MakeDomainCallback.domain_exit env sc s).state.self.async_flags_ =
      s.self.async_flags_ := by
    intro s
    unfold MakeDomainCallback.domain_exit MakeDomainCallback.mark_queue
    split
    · exact d2 _
    · split
      · exact d2 _
      · dsimp only
        split
        · rfl
        · exact d2 _
  have d4 : ∀ s, (MakeDomainCallback.init_hook env sc s).state.self.async_flags_ =
      s.self.async_flags_ := by
    intro s
    unfold MakeDomainCallback.init_hook
    dsimp only
    split
    · rfl
    · exact d3 _
  have d5 : ∀ s, (MakeDomainCallback.domain_enter env sc s).state.self.async_flags_ =
      s.self.async_flags_ := by
    intro s
    unfold MakeDomainCallback.domain_enter
    split
    · exact d4 _
    · split
      · rfl
      · split
        · exact d4 _
        · dsimp only
          split
          · rfl
          · exact d4 _
  have d6 : ∀ s, (MakeDomainCallback env sc cb argv s).state.self.async_flags_ =
      s.self.async_flags_ := by
    intro s
    unfold MakeDomainCallback MakeDomainCallback.parent_pre
    split
    · rfl
    · split
      · exact d5 _
      · dsimp only
        split
        · rfl
        · exact d5 _
  have m0 : ∀ ret s, (MakeCallback.tick_queue env ret s).state.self.async_flags_ =
      s.self.async_flags_ := by
    intro ret s
    unfold MakeCallback.tick_queue
    split <;> rfl
  have m1 : ∀ ret s, (MakeCallback.tick env ret s).state.self.async_flags_ =
      s.self.async_flags_ := by
    intro ret s
    unfold MakeCallback.tick
    split
    · rfl
    · split
      · exact m0 _ _
      · exact m0 _ _
  have m2 : ∀ ret s, (MakeCallback.unload env ret s).state.self.async_flags_ =
      s.self.async_flags_ := by
    intro ret s
    unfold MakeCallback.unload
    split
    · dsimp only
      split
      · rfl
      · exact m1 _ _
    · exact m1 _ _
  have m3 : ∀ s, (MakeCallback.invoke env cb argv s).state.self.async_flags_ =
      s.self.async_flags_ := by
    intro s
    unfold MakeCallback.invoke
    dsimp only
    split
    · rfl
    · exact m2 _ _
  have m4 : ∀ s, (MakeCallback.load env cb argv s).state.self.async_flags_ =
      s.self.async_flags_ := by
    intro s
    unfold MakeCallback.load
    split
    · dsimp only
      split
      · rfl
      · exact m3 _
    · exact m3 _
  refine ⟨?_, d6 s⟩
  unfold MakeCallback
  split
  · exact d6 s
  · split
    · rfl
    · exact m4 s

/-- Outside domains a dispatch on a resource without listener calls neither the
load hook nor the unload hook. -/
theorem MakeCallback.no_listener_no_hooks (env : Environment σ) (sc : DomainScope σ)
    (cb : JSFunction σ) (argv : List Value) (s : State σ)
    (hdom : env.using_domains = false) (hl : has_async_listener s.self = false) :
    CallSite.async_listener_load_function ∉ calls (MakeCallback env sc cb argv s).trace ∧
    CallSite.async_listener_unload_function ∉ calls (MakeCallback env sc cb argv s).trace := by
  have m1 : ∀ ret s (x : CallSite), x ≠ CallSite.tick_callback_function →
      x ∉ calls (MakeCallback.tick env ret s).trace := by
    intro ret s x hx hmem
    obtain ⟨e, he, hs⟩ := List.mem_filterMap.mp hmem
    have := MakeCallback.plain_tick_steps env ret s e he
    cases e <;> simp_all [Event.is_tick_step, Event.site]
  have m3 : ∀ s, has_async_listener s.self = false →
      CallSite.async_listener_load_function ∉
        calls (MakeCallback.invoke env cb argv s).trace ∧
      CallSite.async_listener_unload_function ∉
        calls (MakeCallback.invoke env cb argv s).trace := by
    intro s hs
    unfold MakeCallback.invoke MakeCallback.unload
    dsimp only
    split
    · simp
    · simp only [State.Call_self, hs, Bool.false_eq_true, ite_false, emit_trace,
        calls_cons_call, List.mem_cons, reduceCtorEq, false_or]
      exact ⟨m1 _ _ _ (by simp), m1 _ _ _ (by simp)⟩
  unfold MakeCallback MakeCallback.load
  simp only [hdom, hl, Bool.false_eq_true, ite_false]
  split
  · simp
  · exact m3 s hl

/-- The only call among the steps of the tick stage is the tick callback. -/
theorem site_of_tick_step {e : Event} {x : CallSite} (h : e.is_tick_step = true)
    (hs : e.site = some x) : x = CallSite.tick_callback_function := by
  cases e with
  | call site recv argv res =>
    cases site <;> simp_all [Event.is_tick_step, Event.site]
  | _ => simp [Event.site] at hs

/-- A trace that ends in `x` still ends in `x` with steps put in front. -/
theorem getLast?_append_cons {x : Event} (pre : List Event) (e : Event) {tr : List Event}
    (h : tr.getLast? = some x) : (pre ++ e :: tr).getLast? = some x := by
  induction pre with
  | nil =>
    cases tr with
    | nil => simp at h
    | cons a l => rw [List.nil_append, List.getLast?_cons_cons]; exact h
  | cons b l ih =>
    cases l with
    | nil => rw [List.cons_append, List.nil_append, List.getLast?_cons_cons]; exact ih
    | cons c l2 => rw [List.cons_append, List.cons_append, List.getLast?_cons_cons]; exact ih

/-! ## The claims -/

/-- C1, amended: a dispatch through `MakeDomainCallback` that passes the
`CHECK_EQ` of line 75, on a resource whose domain is disposed, returns
`undefined`. Its steps are exactly these: the call of the pre hook of the
parent, when there is a parent, and then, unless that call raised, the read of
`disposed`. So the pre hook is called once and before the disposed test, no
other call is made, and no step of the tick stage is taken. -/
theorem C1_disposed_dispatch (env : Environment σ) (sc : DomainScope σ)
    (cb : JSFunction σ) (argv : List Value) (s : State σ) (d : Domain σ)
    (hctx : env.context = env.current_context) (hd : sc.domain_v = some d)
    (hdis : d.disposed = Value.boolean true) :
    (MakeDomainCallback env sc cb argv s).completion = Completion.returned Value.undefined ∧
    (MakeDomainCallback env sc cb argv s).trace =
      (match sc.parent with
        | none => [Event.domain_get DomainKey.disposed_string]
        | some parent_obj =>
          Event.call CallSite.async_hooks_pre_function parent_obj []
              (s.Call env.async_hooks_pre_function parent_obj []).1 ::
            (match (s.Call env.async_hooks_pre_function parent_obj []).1 with
              | none => []
              | some _ => [Event.domain_get DomainKey.disposed_string])) ∧
    calls (MakeDomainCallback env sc cb argv s).trace =
      (match sc.parent with
        | some _ => [CallSite.async_hooks_pre_function]
        | none => []) ∧
    ∀ e ∈ (MakeDomainCallback env sc cb argv s).trace, e.is_tick_step = false := by
  have hdis1 : d.disposed.IsTrue = true := by rw [hdis]; rfl
  have h1 : ∀ s, (MakeDomainCallback.domain_enter env sc s).completion =
        Completion.returned Value.undefined ∧
      (MakeDomainCallback.domain_enter env sc s).trace =
        [Event.domain_get DomainKey.disposed_string] := by
    intro s
    unfold MakeDomainCallback.domain_enter
    split
    · simp_all
    · rename_i d1 hd1
      have : d1 = d := by rw [hd] at hd1; exact (Option.some.inj hd1).symm
      subst this
      simp [hdis1]
  unfold MakeDomainCallback MakeDomainCallback.parent_pre
  simp only [hctx, ne_eq, not_true_eq_false, ite_false]
  cases hp : sc.parent with
  | none => simp [h1, Event.is_tick_step]
  | some p =>
    dsimp only
    cases hc : (s.Call env.async_hooks_pre_function p []).1 with
    | none => simp [Event.is_tick_step]
    | some v => simp [h1, Event.is_tick_step]

/-- C1 at a resource with a parent and a disposed domain. -/
theorem C1_disposed_dispatch_witness :
    disposed_scope.domain_v.map Domain.disposed = some (Value.boolean true) ∧
    (MakeDomainCallback domain_env disposed_scope (returning (Value.number 42)) []
        (idle_state 0)).completion = Completion.returned Value.undefined ∧
    (MakeDomainCallback domain_env disposed_scope (returning (Value.number 42)) []
        (idle_state 0)).trace =
      [Event.call CallSite.async_hooks_pre_function (Value.object 2) [] (some Value.undefined),
        Event.domain_get DomainKey.disposed_string] ∧
    calls (MakeDomainCallback domain_env disposed_scope (returning (Value.number 42)) []
        (idle_state 0)).trace = [CallSite.async_hooks_pre_function] ∧
    ∀ e ∈ (MakeDomainCallback domain_env disposed_scope (returning (Value.number 42)) []
        (idle_state 0)).trace, e.is_tick_step = false :=
  ⟨rfl, C1_disposed_dispatch domain_env disposed_scope (returning (Value.number 42)) []
    (idle_state 0) _ rfl rfl rfl⟩

/-- C1 as stated fails: on a resource with a parent and a disposed domain the
pre hook of the parent is called. -/
theorem C1_parent_pre_hook_called :
    disposed_scope.parent = some (Value.object 2) ∧
    disposed_scope.domain_v.map Domain.disposed = some (Value.boolean true) ∧
    CallSite.async_hooks_pre_function ∈
      calls (MakeDomainCallback domain_env disposed_scope (returning (Value.number 42)) []
        (idle_state 0)).trace := by
  decide

/-- C2 fails on the code: without domain and without parent, on a resource
without listener, with an idle empty queue and a callback returning 42, the
path outside domains calls `cb` and returns 42, while `MakeDomainCallback`
calls the init hook instead of `cb` and returns `ret`. -/
theorem C2_paths_disagree :
    (MakeCallback plain_env bare_scope (returning (Value.number 42)) [Value.number 5]
        (idle_state 0)).trace =
      [Event.call CallSite.cb (Value.object 1) [Value.number 5] (some (Value.number 42)),
        Event.read_in_tick false, Event.read_length 0, Event.RunMicrotasks,
        Event.read_length 0, Event.set_index 0] ∧
    (MakeCallback plain_env bare_scope (returning (Value.number 42)) [Value.number 5]
        (idle_state 0)).completion = Completion.returned (Value.number 42) ∧
    (MakeDomainCallback plain_env bare_scope (returning (Value.number 42)) [Value.number 5]
        (idle_state 0)).trace =
      [Event.call CallSite.async_hooks_init_function (Value.object 1) []
          (some Value.undefined),
        Event.read_in_tick false, Event.read_length 0, Event.RunMicrotasks,
        Event.read_length 0, Event.set_index 0] ∧
    (MakeDomainCallback plain_env bare_scope (returning (Value.number 42)) [Value.number 5]
        (idle_state 0)).completion = Completion.returned bare_scope.ret := by
  decide

/-- C3 fails on the code: a resource constructed while `call_async_init_hook`
is false has no listener and its constructor calls nothing, yet a later
dispatch on the domain path calls the init hook on it. -/
theorem C3_init_hook_without_listener :
    plain_env.call_async_init_hook = false ∧
    (AsyncWrap.AsyncWrap plain_env (Value.object 1) 0 none (idle_state 0)).2 = [] ∧
    has_async_listener
      (AsyncWrap.AsyncWrap plain_env (Value.object 1) 0 none (idle_state 0)).1.self = false ∧
    (MakeCallback listening_env bare_scope (returning (Value.number 42)) []
      (AsyncWrap.AsyncWrap plain_env (Value.object 1) 0 none (idle_state 0)).1).trace =
      [Event.call CallSite.async_hooks_init_function (Value.object 1) []
          (some Value.undefined),
        Event.read_in_tick false, Event.read_length 0, Event.RunMicrotasks,
        Event.read_length 0, Event.set_index 0] := by
  decide

/-- C4 fails on the code for the value returned on the domain path: a nested
dispatch (`in_tick` set) of a callback that returns 42 ends after the `in_tick`
test, with the tick info untouched, but it has not called `cb` and returns `ret`;
outside domains the same dispatch calls `cb` and returns 42. -/
theorem C4_nested_domain_dispatch_returns_ret :
    (MakeDomainCallback domain_env ret_scope (returning (Value.number 42)) []
        nested_state).trace =
      [Event.call CallSite.async_hooks_init_function (Value.object 1) []
          (some Value.undefined),
        Event.read_in_tick true] ∧
    (MakeDomainCallback domain_env ret_scope (returning (Value.number 42)) []
        nested_state).completion = Completion.returned (Value.number 7) ∧
    (MakeDomainCallback domain_env ret_scope (returning (Value.number 42)) []
        nested_state).state.tick = nested_state.tick ∧
    (MakeCallback plain_env ret_scope (returning (Value.number 42)) [] nested_state).trace =
      [Event.call CallSite.cb (Value.object 1) [] (some (Value.number 42)),
        Event.read_in_tick true] ∧
    (MakeCallback plain_env ret_scope (returning (Value.number 42)) []
        nested_state).completion = Completion.returned (Value.number 42) := by
  decide

/-- C5 fails on the code outside domains: with one entry queued and a tick
callback that raises, `MakeCallback` clears `in_tick` and its statements end:
`last_threw` stays false and no `undefined` is returned. On the domain path the
same dispatch sets `last_threw` and returns `undefined`. -/
theorem C5_last_threw_not_set_outside_domains :
    (MakeCallback tick_raising_env bare_scope (returning (Value.number 42)) []
        (idle_state 1)).trace =
      [Event.call CallSite.cb (Value.object 1) [] (some (Value.number 42)),
        Event.read_in_tick false, Event.read_length 1, Event.read_length 1,
        Event.set_in_tick true,
        Event.call CallSite.tick_callback_function (Value.object 0) [] none,
        Event.set_in_tick false] ∧
    (MakeCallback tick_raising_env bare_scope (returning (Value.number 42)) []
        (idle_state 1)).completion = Completion.no_return ∧
    (MakeCallback tick_raising_env bare_scope (returning (Value.number 42)) []
        (idle_state 1)).state.tick.last_threw = false ∧
    (MakeDomainCallback tick_raising_env bare_scope (returning (Value.number 42)) []
        (idle_state 1)).completion = Completion.returned Value.undefined ∧
    (MakeDomainCallback tick_raising_env bare_scope (returning (Value.number 42)) []
        (idle_state 1)).state.tick.last_threw = true := by
  decide

/-- C6: on either path, a dispatch that sets `in_tick` to true leaves `in_tick`
false when it ends, whether the tick callback returned or raised. -/
theorem C6_in_tick_cleared (env : Environment σ) (sc : DomainScope σ) (cb : JSFunction σ)
    (argv : List Value) (s : State σ) (r : Run σ)
    (hr : r = MakeCallback env sc cb argv s ∨ r = MakeDomainCallback env sc cb argv s)
    (hset : Event.set_in_tick true ∈ r.trace) :
    r.state.tick.in_tick = false := by
  revert hset
  let P : Run σ → Prop := fun r => Event.set_in_tick true ∈ r.trace → r.state.tick.in_tick = false
  show P r
  have hdone : ∀ c (s : State σ), P (Run.done c s) := by
    intro c s h
    simp at h
  have hemit : ∀ e (r : Run σ), e ≠ Event.set_in_tick true → P r → P (emit e r) := by
    intro e r hne hP h
    simp only [emit_trace, List.mem_cons] at h
    rcases h with h | h
    · exact absurd h.symm hne
    · exact hP h
  -- the domain path, from its last statements backwards
  have d0 : ∀ s, P (MakeDomainCallback.tick_queue env sc s) := by
    intro s
    show _ ∈ _ → _
    unfold MakeDomainCallback.tick_queue
    split
    · simp
    · simp only [emit_state]
      split <;> simp [State.set_in_tick, State.set_last_threw]
  have d1 : ∀ s, P (MakeDomainCallback.tick env sc s) := by
    intro s
    unfold MakeDomainCallback.tick
    repeat' first
      | exact d0 _
      | exact hdone _ _
      | apply hemit _ _ (by simp)
      | split
  have d2 : ∀ s, P (MakeDomainCallback.parent_post env sc s) := by
    intro s
    unfold MakeDomainCallback.parent_post
    repeat' first
      | exact d1 _
      | exact hdone _ _
      | apply hemit _ _ (by simp)
      | split
  have d3 : ∀ s, P (MakeDomainCallback.domain_exit env sc s) := by
    intro s
    unfold MakeDomainCallback.domain_exit MakeDomainCallback.mark_queue
    repeat' first
      | exact d2 _
      | exact hdone _ _
      | apply hemit _ _ (by simp)
      | split
  have d4 : ∀ s, P (MakeDomainCallback.init_hook env sc s) := by
    intro s
    unfold MakeDomainCallback.init_hook
    repeat' first
      | exact d3 _
      | exact hdone _ _
      | apply hemit _ _ (by simp)
      | split
  have d5 : ∀ s, P (MakeDomainCallback.domain_enter env sc s) := by
    intro s
    unfold MakeDomainCallback.domain_enter
    repeat' first
      | exact d4 _
      | exact hdone _ _
      | apply hemit _ _ (by simp)
      | split
  have d6 : ∀ s, P (MakeDomainCallback env sc cb argv s) := by
    intro s
    unfold MakeDomainCallback MakeDomainCallback.parent_pre
    repeat' first
      | exact d5 _
      | exact hdone _ _
      | apply hemit _ _ (by simp)
      | split
  -- the path outside domains
  have m0 : ∀ ret s, P (MakeCallback.tick_queue env ret s) := by
    intro ret s
    show _ ∈ _ → _
    unfold MakeCallback.tick_queue
    split <;> simp [State.set_in_tick]
  have m1 : ∀ ret s, P (MakeCallback.tick env ret s) := by
    intro ret s
    unfold MakeCallback.tick
    repeat' first
      | exact m0 _ _
      | exact hdone _ _
      | apply hemit _ _ (by simp)
      | split
  have m2 : ∀ ret s, P (MakeCallback.unload env ret s) := by
    intro ret s
    unfold MakeCallback.unload
    repeat' first
      | exact m1 _ _
      | exact hdone _ _
      | apply hemit _ _ (by simp)
      | split
  have m3 : ∀ s, P (MakeCallback.load env cb argv s) := by
    intro s
    unfold MakeCallback.load MakeCallback.invoke
    repeat' first
      | exact m2 _ _
      | exact hdone _ _
      | apply hemit _ _ (by simp)
      | split
  rcases hr with rfl | rfl
  · unfold MakeCallback
    repeat' first
      | exact d6 _
      | exact m3 _
      | exact hdone _ _
      | split
  · exact d6 _

/-- C6 at dispatches with one entry queued: outside domains with a tick
callback that returns and with one that raises, and on the domain path with one
that raises. -/
theorem C6_in_tick_cleared_witness :
    Event.set_in_tick true ∈
      (MakeCallback plain_env bare_scope (returning (Value.number 42)) []
        (idle_state 1)).trace ∧
    (MakeCallback plain_env bare_scope (returning (Value.number 42)) []
        (idle_state 1)).state.tick.in_tick = false ∧
    (MakeCallback tick_raising_env bare_scope (returning (Value.number 42)) []
        (idle_state 1)).state.tick.in_tick = false ∧
    (MakeDomainCallback tick_raising_env bare_scope (returning (Value.number 42)) []
        (idle_state 1)).state.tick.in_tick = false :=
  ⟨by decide,
    C6_in_tick_cleared plain_env bare_scope (returning (Value.number 42)) [] (idle_state 1)
      _ (Or.inl rfl) (by decide),
    C6_in_tick_cleared tick_raising_env bare_scope (returning (Value.number 42)) []
      (idle_state 1) _ (Or.inl rfl) (by decide),
    C6_in_tick_cleared tick_raising_env bare_scope (returning (Value.number 42)) []
      (idle_state 1) _ (Or.inr rfl) (by decide)⟩

/-- C7, amended: when the exit hook of the domain raises in a dispatch through
`MakeDomainCallback`, the dispatch returns `undefined` to its caller; the post
hook of the parent is not called and no step of the tick stage is taken. -/
theorem C7_exit_raise_returns_undefined (env : Environment σ) (sc : DomainScope σ)
    (cb : JSFunction σ) (argv : List Value) (s : State σ) (recv : Value) (av : List Value)
    (hexit : Event.call CallSite.exit recv av none ∈
      (MakeDomainCallback env sc cb argv s).trace) :
    (MakeDomainCallback env sc cb argv s).completion = Completion.returned Value.undefined ∧
    CallSite.async_hooks_post_function ∉ calls (MakeDomainCallback env sc cb argv s).trace ∧
    ∀ e ∈ (MakeDomainCallback env sc cb argv s).trace, e.is_tick_step = false := by
  revert hexit
  let P : Run σ → Prop := fun r =>
    Event.call CallSite.exit recv av none ∈ r.trace →
      r.completion = Completion.returned Value.undefined ∧
      CallSite.async_hooks_post_function ∉ calls r.trace ∧
      ∀ e ∈ r.trace, e.is_tick_step = false
  show P _
  have hdone : ∀ c (s : State σ), P (Run.done c s) := by
    intro c s h
    simp at h
  have hemit : ∀ e (r : Run σ), e ≠ Event.call CallSite.exit recv av none →
      e.site ≠ some CallSite.async_hooks_post_function →
      e.is_tick_step = false → P r → P (emit e r) := by
    intro e r hne hsite hstep hP h
    simp only [emit_trace, List.mem_cons] at h
    rcases h with h | h
    · exact absurd h.symm hne
    · refine ⟨(hP h).1, ?_, ?_⟩
      · rw [emit_trace, mem_calls_cons]
        rintro (h1 | h1)
        · exact hsite h1
        · exact (hP h).2.1 h1
      · intro e1 he1
        rcases List.mem_cons.mp he1 with rfl | he1
        · exact hstep
        · exact (hP h).2.2 e1 he1
  have d2 : ∀ s, P (MakeDomainCallback.parent_post env sc s) := by
    intro s h
    have := MakeDomainCallback.parent_post_steps env sc s _ h
    simp [Event.is_tick_step, Event.site] at this
  have d3 : ∀ s, P (MakeDomainCallback.domain_exit env sc s) := by
    intro s
    unfold MakeDomainCallback.domain_exit MakeDomainCallback.mark_queue
    split
    · exact d2 _
    · apply hemit _ _ (by simp) (by simp [Event.site]) (by rfl)
      split
      · exact d2 _
      · dsimp only
        split
        · intro _
          simp [Event.is_tick_step]
        · exact hemit _ _ (by simp [*]) (by simp [Event.site]) rfl (d2 _)
  have d4 : ∀ s, P (MakeDomainCallback.init_hook env sc s) := by
    intro s
    unfold MakeDomainCallback.init_hook
    repeat' first
      | exact d3 _
      | exact hdone _ _
      | apply hemit _ _ (by simp) (by simp [Event.site]) (by rfl)
      | split
  have d5 : ∀ s, P (MakeDomainCallback.domain_enter env sc s) := by
    intro s
    unfold MakeDomainCallback.domain_enter
    repeat' first
      | exact d4 _
      | exact hdone _ _
      | apply hemit _ _ (by simp) (by simp [Event.site]) (by rfl)
      | split
  unfold MakeDomainCallback MakeDomainCallback.parent_pre
  repeat' first
    | exact d5 _
    | exact hdone _ _
    | apply hemit _ _ (by simp) (by simp [Event.site]) (by rfl)
    | split

/-- C7 at a live domain whose exit hook raises. -/
theorem C7_exit_raise_returns_undefined_witness :
    Event.call CallSite.exit (Value.object 3) [] none ∈
      (MakeDomainCallback domain_env exit_raising_scope (returning (Value.number 42)) []
        (idle_state 1)).trace ∧
    (MakeDomainCallback domain_env exit_raising_scope (returning (Value.number 42)) []
        (idle_state 1)).completion = Completion.returned Value.undefined ∧
    CallSite.async_hooks_post_function ∉
      calls (MakeDomainCallback domain_env exit_raising_scope (returning (Value.number 42)) []
        (idle_state 1)).trace ∧
    ∀ e ∈ (MakeDomainCallback domain_env exit_raising_scope (returning (Value.number 42)) []
        (idle_state 1)).trace, e.is_tick_step = false :=
  ⟨by decide,
    C7_exit_raise_returns_undefined domain_env exit_raising_scope
      (returning (Value.number 42)) [] (idle_state 1) (Value.object 3) [] (by decide)⟩

/-- C7 as stated fails: the enter hook is called and returns, the exit hook
raises, and the dispatch returns `undefined` instead of ending in `FatalError`. -/
theorem C7_exit_raise_not_fatal :
    Event.call CallSite.enter (Value.object 3) [] (some Value.undefined) ∈
      (MakeDomainCallback domain_env exit_raising_scope (returning (Value.number 42)) []
        (idle_state 1)).trace ∧
    Event.call CallSite.exit (Value.object 3) [] none ∈
      (MakeDomainCallback domain_env exit_raising_scope (returning (Value.number 42)) []
        (idle_state 1)).trace ∧
    (MakeDomainCallback domain_env exit_raising_scope (returning (Value.number 42)) []
        (idle_state 1)).completion = Completion.returned Value.undefined := by
  decide

/-- C8: when the post hook of the parent raises in a dispatch through
`MakeDomainCallback`, the dispatch ends in `FatalError` and no step of the tick
stage is taken: no microtask run, no call of the tick callback, no read or write
of the tick info. -/
theorem C8_parent_post_fatal (env : Environment σ) (sc : DomainScope σ)
    (cb : JSFunction σ) (argv : List Value) (s : State σ) (recv : Value) (av : List Value)
    (hpost : Event.call CallSite.async_hooks_post_function recv av none ∈
      (MakeDomainCallback env sc cb argv s).trace) :
    (MakeDomainCallback env sc cb argv s).completion =
        Completion.fatal "node::AsyncWrap::AsyncWrap" "parent post hook threw" ∧
    ∀ e ∈ (MakeDomainCallback env sc cb argv s).trace, e.is_tick_step = false := by
  revert hpost
  let P : Run σ → Prop := fun r =>
    Event.call CallSite.async_hooks_post_function recv av none ∈ r.trace →
      r.completion = Completion.fatal "node::AsyncWrap::AsyncWrap" "parent post hook threw" ∧
      ∀ e ∈ r.trace, e.is_tick_step = false
  show P _
  have hdone : ∀ c (s : State σ), P (Run.done c s) := by
    intro c s h
    simp at h
  have hemit : ∀ e (r : Run σ),
      e ≠ Event.call CallSite.async_hooks_post_function recv av none →
      e.is_tick_step = false → P r → P (emit e r) := by
    intro e r hne hstep hP h
    simp only [emit_trace, List.mem_cons] at h
    rcases h with h | h
    · exact absurd h.symm hne
    · refine ⟨(hP h).1, ?_⟩
      intro e1 he1
      rcases List.mem_cons.mp he1 with rfl | he1
      · exact hstep
      · exact (hP h).2 e1 he1
  have d1 : ∀ s, P (MakeDomainCallback.tick env sc s) := by
    intro s h
    have := MakeDomainCallback.domain_tick_steps env sc s _ h
    simp [Event.is_tick_step] at this
  have d2 : ∀ s, P (MakeDomainCallback.parent_post env sc s) := by
    intro s
    unfold MakeDomainCallback.parent_post
    split
    · exact d1 _
    · dsimp only
      split
      · intro _
        simp [Event.is_tick_step]
      · exact hemit _ _ (by simp [*]) rfl (d1 _)
  have d3 : ∀ s, P (MakeDomainCallback.domain_exit env sc s) := by
    intro s
    unfold MakeDomainCallback.domain_exit MakeDomainCallback.mark_queue
    repeat' first
      | exact d2 _
      | exact hdone _ _
      | apply hemit _ _ (by simp) (by rfl)
      | split
  have d4 : ∀ s, P (MakeDomainCallback.init_hook env sc s) := by
    intro s
    unfold MakeDomainCallback.init_hook
    repeat' first
      | exact d3 _
      | exact hdone _ _
      | apply hemit _ _ (by simp) (by rfl)
      | split
  have d5 : ∀ s, P (MakeDomainCallback.domain_enter env sc s) := by
    intro s
    unfold MakeDomainCallback.domain_enter
    repeat' first
      | exact d4 _
      | exact hdone _ _
      | apply hemit _ _ (by simp) (by rfl)
      | split
  unfold MakeDomainCallback MakeDomainCallback.parent_pre
  repeat' first
    | exact d5 _
    | exact hdone _ _
    | apply hemit _ _ (by simp) (by rfl)
    | split

/-- C8 at a resource with a parent, in an environment whose post hook raises. -/
theorem C8_parent_post_fatal_witness :
    Event.call CallSite.async_hooks_post_function (Value.object 2) [] none ∈
      (MakeDomainCallback post_raising_env parent_scope (returning (Value.number 42)) []
        (idle_state 1)).trace ∧
    (MakeDomainCallback post_raising_env parent_scope (returning (Value.number 42)) []
        (idle_state 1)).completion =
      Completion.fatal "node::AsyncWrap::AsyncWrap" "parent post hook threw" ∧
    ∀ e ∈ (MakeDomainCallback post_raising_env parent_scope (returning (Value.number 42)) []
        (idle_state 1)).trace, e.is_tick_step = false :=
  ⟨by decide,
    C8_parent_post_fatal post_raising_env parent_scope (returning (Value.number 42)) []
      (idle_state 1) (Value.object 2) [] (by decide)⟩

/-- C9, amended: in a dispatch through `MakeDomainCallback` whose enter hook is
called and returns, only the pre hook of the parent is called before enter.
When a call made after enter, other than the exit hook, the post hook of the
parent and the tick callback, raises, the dispatch ends with that call and
returns `undefined`, and the exit hook is not called. When no such call raises,
the exit hook is called exactly once, after enter, if the `exit` property of the
domain is a function (also when exit itself, the post hook or the tick callback
raises), and not at all if it is not a function. -/
theorem C9_exit_after_enter (env : Environment σ) (sc : DomainScope σ)
    (cb : JSFunction σ) (argv : List Value) (s : State σ) (d : Domain σ)
    (recv : Value) (av : List Value) (v : Value)
    (hd : sc.domain_v = some d)
    (henter : Event.call CallSite.enter recv av (some v) ∈
      (MakeDomainCallback env sc cb argv s).trace) :
    ∃ pre post,
      (MakeDomainCallback env sc cb argv s).trace =
        pre ++ Event.call CallSite.enter recv av (some v) :: post ∧
      (∀ x ∈ calls pre, x = CallSite.async_hooks_pre_function) ∧
      CallSite.enter ∉ calls post ∧
      (∀ site rv a, site ≠ CallSite.exit → site ≠ CallSite.async_hooks_post_function →
        site ≠ CallSite.tick_callback_function → Event.call site rv a none ∈ post →
        (MakeDomainCallback env sc cb argv s).completion =
            Completion.returned Value.undefined ∧
          CallSite.exit ∉ calls (MakeDomainCallback env sc cb argv s).trace ∧
          (MakeDomainCallback env sc cb argv s).trace.getLast? =
            some (Event.call site rv a none)) ∧
      ((∀ site rv a, Event.call site rv a none ∈ post →
          site = CallSite.exit ∨ site = CallSite.async_hooks_post_function ∨
            site = CallSite.tick_callback_function) →
        (calls (MakeDomainCallback env sc cb argv s).trace).count CallSite.exit =
          if d.exit.isSome then 1 else 0) := by
  revert henter
  let A : List Event → Prop := fun tr =>
    ∀ site rv a, Event.call site rv a none ∈ tr →
      site = CallSite.exit ∨ site = CallSite.async_hooks_post_function ∨
        site = CallSite.tick_callback_function
  let Q : List Event → Completion → Prop := fun tr c =>
    CallSite.enter ∉ calls tr ∧
    (∀ site rv a, site ≠ CallSite.exit → site ≠ CallSite.async_hooks_post_function →
      site ≠ CallSite.tick_callback_function → Event.call site rv a none ∈ tr →
      c = Completion.returned Value.undefined ∧ CallSite.exit ∉ calls tr ∧
        tr.getLast? = some (Event.call site rv a none)) ∧
    (A tr → (calls tr).count CallSite.exit = if d.exit.isSome then 1 else 0)
  let P : Run σ → Prop := fun r =>
    Event.call CallSite.enter recv av (some v) ∈ r.trace →
    ∃ pre post, r.trace = pre ++ Event.call CallSite.enter recv av (some v) :: post ∧
      (∀ x ∈ calls pre, x = CallSite.async_hooks_pre_function) ∧ Q post r.completion
  have hfin : P (MakeDomainCallback env sc cb argv s) := by
    have hdone : ∀ c (s : State σ), P (Run.done c s) := by
      intro c s h
      simp at h
    have hemit : ∀ e (r : Run σ), e ≠ Event.call CallSite.enter recv av (some v) →
        (∀ x, e.site = some x → x = CallSite.async_hooks_pre_function) →
        P r → P (emit e r) := by
      intro e r hne hsite hP h
      simp only [emit_trace, List.mem_cons] at h
      rcases h with h | h
      · exact absurd h.symm hne
      · obtain ⟨pre, post, h1, h2, h3⟩ := hP h
        refine ⟨e :: pre, post, by simp [h1], ?_, h3⟩
        intro x hx
        rcases (mem_calls_cons x e pre).mp hx with hx | hx
        · exact hsite x hx
        · exact h2 x hx
    have hcall : ∀ {tr : List Event}, Event.call CallSite.enter recv av (some v) ∈ tr →
        CallSite.enter ∈ calls tr :=
      fun h => List.mem_filterMap.mpr ⟨_, h, rfl⟩
    -- the steps after line 123
    have t2 : ∀ s, CallSite.enter ∉ calls (MakeDomainCallback.parent_post env sc s).trace ∧
        CallSite.exit ∉ calls (MakeDomainCallback.parent_post env sc s).trace ∧
        A (MakeDomainCallback.parent_post env sc s).trace := by
      intro s
      have hs := MakeDomainCallback.parent_post_steps env sc s
      have hsite : ∀ x ∈ calls (MakeDomainCallback.parent_post env sc s).trace,
          x = CallSite.tick_callback_function ∨ x = CallSite.async_hooks_post_function := by
        intro x hmem
        obtain ⟨e, he, hx⟩ := List.mem_filterMap.mp hmem
        rcases hs e he with h | h
        · exact Or.inl (site_of_tick_step h hx)
        · rw [hx] at h
          exact Or.inr (Option.some.inj h)
      refine ⟨?_, ?_, ?_⟩
      · intro hmem
        rcases hsite _ hmem with h | h <;> cases h
      · intro hmem
        rcases hsite _ hmem with h | h <;> cases h
      · intro site rv a he
        rcases hsite site (List.mem_filterMap.mpr ⟨_, he, rfl⟩) with h | h
        · exact Or.inr (Or.inr h)
        · exact Or.inr (Or.inl h)
    -- the exit block
    have t3 : ∀ s, CallSite.enter ∉ calls (MakeDomainCallback.domain_exit env sc s).trace ∧
        (calls (MakeDomainCallback.domain_exit env sc s).trace).count CallSite.exit =
          (if d.exit.isSome then 1 else 0) ∧
        A (MakeDomainCallback.domain_exit env sc s).trace := by
      intro s
      unfold MakeDomainCallback.domain_exit MakeDomainCallback.mark_queue
      split
      · simp_all
      · rename_i d1 hd1
        have : d1 = d := by rw [hd] at hd1; exact (Option.some.inj hd1).symm
        subst this
        simp only [emit_trace, calls_cons_domain_get]
        split
        · rename_i hex
          refine ⟨(t2 _).1, ?_, ?_⟩
          · simp [hex, List.count_eq_zero.mpr (t2 _).2.1]
          · intro site rv a he
            simp only [List.mem_cons] at he
            rcases he with he | he
            · cases he
            · exact (t2 _).2.2 site rv a he
        · rename_i ex hex
          split
          · refine ⟨by simp, by simp [hex], ?_⟩
            intro site rv a he
            simp at he
            exact Or.inl he.1
          · refine ⟨by simp [(t2 _).1], ?_, ?_⟩
            · simp [hex, List.count_eq_zero.mpr (t2 _).2.1]
            · intro site rv a he
              simp only [emit_trace, List.mem_cons] at he
              rcases he with he | he | he
              · cases he
              · simp at he
                exact Or.inl he.1
              · exact (t2 _).2.2 site rv a he
    -- line 107 and what follows
    have t4 : ∀ s, Q (MakeDomainCallback.init_hook env sc s).trace
        (MakeDomainCallback.init_hook env sc s).completion := by
      intro s
      unfold MakeDomainCallback.init_hook
      dsimp only
      split
      · rename_i hres
        refine ⟨by simp, ?_, ?_⟩
        · intro site rv a _ _ _ he
          simp only [emit_trace, done_trace, List.mem_singleton] at he
          refine ⟨by simp, by simp, ?_⟩
          rw [he]
          simp
        · intro hA
          have := hA CallSite.async_hooks_init_function s.self.object [] (by simp [hres])
          simp at this
      · rename_i v2 hres
        refine ⟨by simp [(t3 _).1], ?_, ?_⟩
        · intro site rv a h1 h2 h3 he
          simp only [emit_trace, List.mem_cons] at he
          rcases he with he | he
          · rw [hres] at he
            simp at he
          · rcases (t3 _).2.2 site rv a he with h | h | h
            · exact absurd h h1
            · exact absurd h h2
            · exact absurd h h3
        · intro _
          simp [(t3 _).2.1]
    -- the disposed test and the enter hook
    have t5 : ∀ s, P (MakeDomainCallback.domain_enter env sc s) := by
      intro s
      unfold MakeDomainCallback.domain_enter
      split
      · intro h
        exact absurd (hcall h) (t4 s).1
      · apply hemit _ _ (by simp) (by simp [Event.site])
        split
        · exact hdone _ _
        · apply hemit _ _ (by simp) (by simp [Event.site])
          split
          · intro h
            exact absurd (hcall h) (t4 s).1
          · dsimp only
            split
            · intro h
              simp_all
            · intro h
              simp only [emit_trace, List.mem_cons] at h
              rcases h with h | h
              · refine ⟨[], _, ?_, by simp, t4 _⟩
                rw [h]
                simp
              · exact absurd (hcall h) (t4 _).1
    unfold MakeDomainCallback MakeDomainCallback.parent_pre
    split
    · exact hdone _ _
    · split
      · exact t5 _
      · dsimp only
        apply hemit _ _ (by simp) (by simp [Event.site])
        split
        · exact hdone _ _
        · exact t5 (s.Call env.async_hooks_pre_function _ []).2
  intro henter
  obtain ⟨pre, post, h1, h2, h3, h4, h5⟩ := hfin henter
  have hpre : CallSite.exit ∉ calls pre := by
    intro h
    have := h2 _ h
    cases this
  have hcalls : calls (MakeDomainCallback env sc cb argv s).trace =
      calls pre ++ CallSite.enter :: calls post := by
    rw [h1]
    simp [calls, List.filterMap_append, Event.site]
  refine ⟨pre, post, h1, h2, h3, ?_, ?_⟩
  · intro site rv a e1 e2 e3 he
    obtain ⟨g1, g2, g3⟩ := h4 site rv a e1 e2 e3 he
    refine ⟨g1, ?_, ?_⟩
    · rw [hcalls]
      simp [hpre, g2]
    · rw [h1]
      exact getLast?_append_cons pre _ g3
  · intro hA
    rw [hcalls, List.count_append, List.count_eq_zero.mpr hpre]
    simp [h5 hA]

/-- C9 at a live domain whose hooks all return, without parent. -/
theorem C9_exit_after_enter_witness :
    Event.call CallSite.enter (Value.object 3) [] (some Value.undefined) ∈
      (MakeDomainCallback domain_env live_scope (returning (Value.number 42)) []
        (idle_state 1)).trace ∧
    ∃ pre post,
      (MakeDomainCallback domain_env live_scope (returning (Value.number 42)) []
          (idle_state 1)).trace =
        pre ++ Event.call CallSite.enter (Value.object 3) [] (some Value.undefined) :: post ∧
      (∀ x ∈ calls pre, x = CallSite.async_hooks_pre_function) ∧
      CallSite.enter ∉ calls post ∧
      (∀ site rv a, site ≠ CallSite.exit → site ≠ CallSite.async_hooks_post_function →
        site ≠ CallSite.tick_callback_function → Event.call site rv a none ∈ post →
        (MakeDomainCallback domain_env live_scope (returning (Value.number 42)) []
            (idle_state 1)).completion = Completion.returned Value.undefined ∧
          CallSite.exit ∉ calls (MakeDomainCallback domain_env live_scope
            (returning (Value.number 42)) [] (idle_state 1)).trace ∧
          (MakeDomainCallback domain_env live_scope (returning (Value.number 42)) []
              (idle_state 1)).trace.getLast? = some (Event.call site rv a none)) ∧
      ((∀ site rv a, Event.call site rv a none ∈ post →
          site = CallSite.exit ∨ site = CallSite.async_hooks_post_function ∨
            site = CallSite.tick_callback_function) →
        (calls (MakeDomainCallback domain_env live_scope (returning (Value.number 42)) []
            (idle_state 1)).trace).count CallSite.exit =
          if (sample_domain (Value.boolean false) (some (returning Value.undefined))
            (some (returning Value.undefined))).exit.isSome then 1 else 0) :=
  ⟨by decide,
    C9_exit_after_enter domain_env live_scope (returning (Value.number 42)) [] (idle_state 1)
      _ (Value.object 3) [] Value.undefined rfl (by decide)⟩

/-- C9 as stated fails: the enter hook is called and returns, the init hook
raises, and the dispatch ends without a call of the exit hook. -/
theorem C9_exit_skipped_when_init_raises :
    Event.call CallSite.enter (Value.object 3) [] (some Value.undefined) ∈
      (MakeDomainCallback init_raising_env live_scope (returning (Value.number 42)) []
        (idle_state 1)).trace ∧
    (calls (MakeDomainCallback init_raising_env live_scope (returning (Value.number 42)) []
        (idle_state 1)).trace).count CallSite.exit = 0 ∧
    (MakeDomainCallback init_raising_env live_scope (returning (Value.number 42)) []
        (idle_state 1)).completion = Completion.returned Value.undefined := by
  decide

/-- C10, amended: when `cb` raises in a dispatch through `MakeCallback` outside
domains, the dispatch returns `undefined` right after the call: the unload hook
is not called and no step of the tick stage is taken. -/
theorem C10_callback_raise_skips_tick (env : Environment σ) (sc : DomainScope σ)
    (cb : JSFunction σ) (argv : List Value) (s : State σ) (recv : Value) (av : List Value)
    (hdom : env.using_domains = false)
    (hcb : Event.call CallSite.cb recv av none ∈ (MakeCallback env sc cb argv s).trace) :
    (MakeCallback env sc cb argv s).completion = Completion.returned Value.undefined ∧
    CallSite.async_listener_unload_function ∉ calls (MakeCallback env sc cb argv s).trace ∧
    ∀ e ∈ (MakeCallback env sc cb argv s).trace, e.is_tick_step = false := by
  revert hcb
  let P : Run σ → Prop := fun r =>
    Event.call CallSite.cb recv av none ∈ r.trace →
      r.completion = Completion.returned Value.undefined ∧
      CallSite.async_listener_unload_function ∉ calls r.trace ∧
      ∀ e ∈ r.trace, e.is_tick_step = false
  show P _
  have hdone : ∀ c (s : State σ), P (Run.done c s) := by
    intro c s h
    simp at h
  have hemit : ∀ e (r : Run σ), e ≠ Event.call CallSite.cb recv av none →
      e.site ≠ some CallSite.async_listener_unload_function →
      e.is_tick_step = false → P r → P (emit e r) := by
    intro e r hne hsite hstep hP h
    simp only [emit_trace, List.mem_cons] at h
    rcases h with h | h
    · exact absurd h.symm hne
    · refine ⟨(hP h).1, ?_, ?_⟩
      · rw [emit_trace, mem_calls_cons]
        rintro (h1 | h1)
        · exact hsite h1
        · exact (hP h).2.1 h1
      · intro e1 he1
        rcases List.mem_cons.mp he1 with rfl | he1
        · exact hstep
        · exact (hP h).2.2 e1 he1
  have m2 : ∀ ret s, P (MakeCallback.unload env ret s) := by
    intro ret s h
    have := MakeCallback.unload_steps env ret s _ h
    simp [Event.is_tick_step, Event.site] at this
  have m3 : ∀ s, P (MakeCallback.invoke env cb argv s) := by
    intro s
    unfold MakeCallback.invoke
    dsimp only
    split
    · intro _
      simp [Event.is_tick_step]
    · exact hemit _ _ (by simp [*]) (by simp [Event.site]) rfl (m2 _ _)
  have m4 : ∀ s, P (MakeCallback.load env cb argv s) := by
    intro s
    unfold MakeCallback.load
    repeat' first
      | exact m3 _
      | exact hdone _ _
      | apply hemit _ _ (by simp) (by simp [Event.site]) (by rfl)
      | split
  unfold MakeCallback
  simp only [hdom, Bool.false_eq_true, ite_false]
  split
  · exact hdone _ _
  · exact m4 _

/-- C10 at a dispatch outside domains whose callback raises, one entry queued. -/
theorem C10_callback_raise_skips_tick_witness :
    plain_env.using_domains = false ∧
    Event.call CallSite.cb (Value.object 1) [] none ∈
      (MakeCallback plain_env bare_scope raising [] (idle_state 1)).trace ∧
    (MakeCallback plain_env bare_scope raising [] (idle_state 1)).completion =
      Completion.returned Value.undefined ∧
    CallSite.async_listener_unload_function ∉
      calls (MakeCallback plain_env bare_scope raising [] (idle_state 1)).trace ∧
    ∀ e ∈ (MakeCallback plain_env bare_scope raising [] (idle_state 1)).trace,
      e.is_tick_step = false :=
  ⟨rfl, by decide,
    C10_callback_raise_skips_tick plain_env bare_scope raising [] (idle_state 1)
      (Value.object 1) [] rfl (by decide)⟩

/-- C10 as stated fails: a top-level dispatch (`in_tick` false, one entry
queued) whose callback raises consists of the call of `cb` alone; the
`in_tick` test, the microtask run and the tick callback are not reached. -/
theorem C10_callback_raise_no_tick_stage :
    (idle_state 1).tick.in_tick = false ∧
    (MakeCallback plain_env bare_scope raising [] (idle_state 1)).trace =
      [Event.call CallSite.cb (Value.object 1) [] none] ∧
    (MakeCallback plain_env bare_scope raising [] (idle_state 1)).completion =
      Completion.returned Value.undefined := by
  decide

/-- The calls of `MakeDomainCallback`: the pre and post hooks of the parent, the
enter and exit hooks of the domain, the init hook and the tick callback. -/
theorem MakeDomainCallback.domain_sites (env : Environment σ) (sc : DomainScope σ)
    (cb : JSFunction σ) (argv : List Value) (s : State σ) :
    ∀ x ∈ calls (MakeDomainCallback env sc cb argv s).trace,
      x = CallSite.async_hooks_pre_function ∨ x = CallSite.enter ∨
      x = CallSite.async_hooks_init_function ∨ x = CallSite.exit ∨
      x = CallSite.async_hooks_post_function ∨ x = CallSite.tick_callback_function := by
  let P : Run σ → Prop := fun r => ∀ x ∈ calls r.trace,
      x = CallSite.async_hooks_pre_function ∨ x = CallSite.enter ∨
      x = CallSite.async_hooks_init_function ∨ x = CallSite.exit ∨
      x = CallSite.async_hooks_post_function ∨ x = CallSite.tick_callback_function
  show P _
  have hdone : ∀ c (s : State σ), P (Run.done c s) := by
    intro c s x hx
    simp at hx
  have hemit : ∀ e (r : Run σ), (∀ x, e.site = some x →
      x = CallSite.async_hooks_pre_function ∨ x = CallSite.enter ∨
      x = CallSite.async_hooks_init_function ∨ x = CallSite.exit ∨
      x = CallSite.async_hooks_post_function ∨ x = CallSite.tick_callback_function) →
      P r → P (emit e r) := by
    intro e r he hP x hx
    rw [emit_trace, mem_calls_cons] at hx
    rcases hx with hx | hx
    · exact he x hx
    · exact hP x hx
  have d0 : ∀ s, P (MakeDomainCallback.tick_queue env sc s) := by
    intro s
    unfold MakeDomainCallback.tick_queue
    repeat' first
      | exact hdone _ _
      | apply hemit _ _ (by simp [Event.site])
      | split
  have d1 : ∀ s, P (MakeDomainCallback.tick env sc s) := by
    intro s
    unfold MakeDomainCallback.tick
    repeat' first
      | exact d0 _
      | exact hdone _ _
      | apply hemit _ _ (by simp [Event.site])
      | split
  have d2 : ∀ s, P (MakeDomainCallback.parent_post env sc s) := by
    intro s
    unfold MakeDomainCallback.parent_post
    repeat' first
      | exact d1 _
      | exact hdone _ _
      | apply hemit _ _ (by simp [Event.site])
      | split
  have d3 : ∀ s, P (MakeDomainCallback.domain_exit env sc s) := by
    intro s
    unfold MakeDomainCallback.domain_exit MakeDomainCallback.mark_queue
    repeat' first
      | exact d2 _
      | exact hdone _ _
      | apply hemit _ _ (by simp [Event.site])
      | split
  have d4 : ∀ s, P (MakeDomainCallback.init_hook env sc s) := by
    intro s
    unfold MakeDomainCallback.init_hook
    repeat' first
      | exact d3 _
      | exact hdone _ _
      | apply hemit _ _ (by simp [Event.site])
      | split
  have d5 : ∀ s, P (MakeDomainCallback.domain_enter env sc s) := by
    intro s
    unfold MakeDomainCallback.domain_enter
    repeat' first
      | exact d4 _
      | exact hdone _ _
      | apply hemit _ _ (by simp [Event.site])
      | split
  unfold MakeDomainCallback MakeDomainCallback.parent_pre
  repeat' first
    | exact d5 _
    | exact hdone _ _
    | apply hemit _ _ (by simp [Event.site])
    | split

/-- A trace that ends in `x` still ends in `x` with a step put in front. -/
theorem getLast?_emit {e x : Event} {tr : List Event} (h : tr.getLast? = some x) :
    (e :: tr).getLast? = some x := by
  cases tr with
  | nil => simp at h
  | cons a l => rw [List.getLast?_cons_cons]; exact h


/-- Outside domains, on a resource with listener, when the load hook, the
callback (returning `v`) and the unload hook do not raise and the tick stage is
reached with a tick state that has `in_tick` false and an empty queue before
and after the microtask run, the dispatch calls load, then `cb` once with the
given arguments, then unload, runs the microtasks once, sets the index to 0 and
returns `v`; the tick callback is not called and `in_tick` is false at the end. -/
theorem MakeCallback.instrumented_dispatch (env : Environment σ) (sc : DomainScope σ)
    (cb : JSFunction σ) (argv : List Value) (s s1 s2 s3 : State σ) (l v u : Value)
    (hdom : env.using_domains = false) (hctx : env.context = env.current_context)
    (hl : has_async_listener s.self = true)
    (hload : s.Call env.async_listener_load_function env.process_object [s.self.object] =
      (some l, s1))
    (hcb : s1.Call cb s.self.object argv = (some v, s2))
    (hunload : s2.Call env.async_listener_unload_function env.process_object
      [s.self.object] = (some u, s3))
    (htick : s3.tick.in_tick = false) (hlen : s3.tick.length = 0)
    (hlen2 : (s3.RunMicrotasks env).tick.length = 0)
    (htick2 : (s3.RunMicrotasks env).tick.in_tick = false) :
    (MakeCallback env sc cb argv s).trace =
      [Event.call CallSite.async_listener_load_function env.process_object [s.self.object]
          (some l),
        Event.call CallSite.cb s.self.object argv (some v),
        Event.call CallSite.async_listener_unload_function env.process_object
          [s.self.object] (some u),
        Event.read_in_tick false, Event.read_length 0, Event.RunMicrotasks,
        Event.read_length 0, Event.set_index 0] ∧
    (MakeCallback env sc cb argv s).completion = Completion.returned v ∧
    (MakeCallback env sc cb argv s).state.tick.in_tick = false := by
  have e1 : s1.self = s.self := by
    have h := congrArg (fun p => p.2.self) hload
    simp only [State.Call_self] at h
    exact h.symm
  have e2 : s2.self = s.self := by
    have h := congrArg (fun p => p.2.self) hcb
    simp only [State.Call_self] at h
    rw [← h, e1]
  have hl2 : has_async_listener s2.self = true := by rw [e2]; exact hl
  simp [MakeCallback, MakeCallback.load, MakeCallback.invoke, MakeCallback.unload,
    MakeCallback.tick, MakeCallback.tick_queue, hdom, hctx, hl, hload, e1, hcb, hl2, e2,
    hunload, htick, hlen, hlen2, htick2, State.set_index]

/-- The dispatch outside domains of a callback that returns 42, on a resource
with listener and an idle, empty queue. -/
theorem MakeCallback.instrumented_dispatch_at_42 :
    has_async_listener (listener_state 0).self = true ∧
    (MakeCallback plain_env bare_scope (returning (Value.number 42)) [Value.number 5]
        (listener_state 0)).trace =
      [Event.call CallSite.async_listener_load_function (Value.object 0) [Value.object 1]
          (some Value.undefined),
        Event.call CallSite.cb (Value.object 1) [Value.number 5] (some (Value.number 42)),
        Event.call CallSite.async_listener_unload_function (Value.object 0)
          [Value.object 1] (some Value.undefined),
        Event.read_in_tick false, Event.read_length 0, Event.RunMicrotasks,
        Event.read_length 0, Event.set_index 0] ∧
    (MakeCallback plain_env bare_scope (returning (Value.number 42)) [Value.number 5]
        (listener_state 0)).completion = Completion.returned (Value.number 42) ∧
    (MakeCallback plain_env bare_scope (returning (Value.number 42)) [Value.number 5]
        (listener_state 0)).state.tick.in_tick = false :=
  ⟨by decide,
    MakeCallback.instrumented_dispatch plain_env bare_scope (returning (Value.number 42))
      [Value.number 5] (listener_state 0) (listener_state 0) (listener_state 0)
      (listener_state 0) Value.undefined (Value.number 42) Value.undefined
      rfl rfl (by decide) rfl rfl rfl rfl rfl rfl rfl⟩

/-- C11 fails on the code when domains are in use: on a resource with listener
and without parent, with an idle empty queue, hooks that return and a callback
returning 42, `MakeCallback` under `using_domains` makes one call, the init hook
of line 107: it calls neither load nor `cb` nor unload, and it returns `ret`,
not 42. Outside domains the same dispatch calls load, `cb` once with the given
arguments, then unload, and returns 42. -/
theorem C11_domain_dispatch_skips_callback :
    has_async_listener (listener_state 0).self = true ∧
    bare_scope.parent = none ∧
    domain_env.using_domains = true ∧
    (MakeCallback domain_env bare_scope (returning (Value.number 42)) [Value.number 5]
        (listener_state 0)).trace =
      [Event.call CallSite.async_hooks_init_function (Value.object 1) []
          (some Value.undefined),
        Event.read_in_tick false, Event.read_length 0, Event.RunMicrotasks,
        Event.read_length 0, Event.set_index 0] ∧
    (MakeCallback domain_env bare_scope (returning (Value.number 42)) [Value.number 5]
        (listener_state 0)).completion = Completion.returned Value.undefined ∧
    (MakeCallback plain_env bare_scope (returning (Value.number 42)) [Value.number 5]
        (listener_state 0)).trace =
      [Event.call CallSite.async_listener_load_function (Value.object 0) [Value.object 1]
          (some Value.undefined),
        Event.call CallSite.cb (Value.object 1) [Value.number 5] (some (Value.number 42)),
        Event.call CallSite.async_listener_unload_function (Value.object 0)
          [Value.object 1] (some Value.undefined),
        Event.read_in_tick false, Event.read_length 0, Event.RunMicrotasks,
        Event.read_length 0, Event.set_index 0] ∧
    (MakeCallback plain_env bare_scope (returning (Value.number 42)) [Value.number 5]
        (listener_state 0)).completion = Completion.returned (Value.number 42) := by
  decide

/-- C12: when a hook that is called before the callback raises (the pre hook of
the parent, the enter hook of the domain, the init hook of line 107, or the
load hook outside domains), the dispatch returns `undefined`, on either path;
`cb` is not called, the call that raised is the last step of the dispatch, so
that no later hook is called, and no step of the tick stage is taken: the tick
info is neither read nor written. -/
theorem C12_early_hook_raise_aborts (env : Environment σ) (sc : DomainScope σ)
    (cb : JSFunction σ) (argv : List Value) (s : State σ) (r : Run σ)
    (site : CallSite) (recv : Value) (av : List Value)
    (hr : r = MakeCallback env sc cb argv s ∨ r = MakeDomainCallback env sc cb argv s)
    (hsite : site = CallSite.async_hooks_pre_function ∨ site = CallSite.enter ∨
      site = CallSite.async_hooks_init_function ∨
      site = CallSite.async_listener_load_function)
    (hraise : Event.call site recv av none ∈ r.trace) :
    r.completion = Completion.returned Value.undefined ∧
    CallSite.cb ∉ calls r.trace ∧
    r.trace.getLast? = some (Event.call site recv av none) ∧
    ∀ e ∈ r.trace, e.is_tick_step = false := by
  revert hraise
  let P : Run σ → Prop := fun r =>
    Event.call site recv av none ∈ r.trace →
      r.completion = Completion.returned Value.undefined ∧
      CallSite.cb ∉ calls r.trace ∧
      r.trace.getLast? = some (Event.call site recv av none) ∧
      ∀ e ∈ r.trace, e.is_tick_step = false
  let Q : Run σ → Prop := fun r => Event.call site recv av none ∉ r.trace
  show P r
  have hPQ : ∀ r, Q r → P r := fun r hq h => absurd h hq
  have hdone : ∀ c (s : State σ), P (Run.done c s) := by
    intro c s h
    simp at h
  have hemit : ∀ e (r : Run σ), e ≠ Event.call site recv av none →
      e.site ≠ some CallSite.cb → e.is_tick_step = false → P r → P (emit e r) := by
    intro e r hne hs hstep hP h
    simp only [emit_trace, List.mem_cons] at h
    rcases h with h | h
    · exact absurd h.symm hne
    · obtain ⟨h1, h2, h3, h4⟩ := hP h
      refine ⟨h1, ?_, getLast?_emit h3, ?_⟩
      · rw [emit_trace, mem_calls_cons]
        rintro (h5 | h5)
        · exact hs h5
        · exact h2 h5
      · intro e1 he1
        rcases List.mem_cons.mp he1 with rfl | he1
        · exact hstep
        · exact h4 e1 he1
  have hlast : ∀ e (s : State σ), e.site ≠ some CallSite.cb → e.is_tick_step = false →
      P (emit e (Run.done (Completion.returned Value.undefined) s)) := by
    intro e s hs hstep h
    simp only [emit_trace, done_trace, List.mem_singleton] at h
    subst h
    refine ⟨rfl, ?_, rfl, ?_⟩
    · rw [emit_trace, done_trace, mem_calls_cons]
      rintro (h5 | h5)
      · exact hs h5
      · simp at h5
    · intro e1 he1
      simp only [emit_trace, done_trace, List.mem_singleton] at he1
      subst he1
      exact hstep
  have qdone : ∀ c (s : State σ), Q (Run.done c s) := by
    intro c s h
    simp at h
  have qemit : ∀ e (r : Run σ), e ≠ Event.call site recv av none → Q r → Q (emit e r) := by
    intro e r hne hQ h
    simp only [emit_trace, List.mem_cons] at h
    rcases h with h | h
    · exact hne h.symm
    · exact hQ h
  -- the domain path after the init hook: only exit, post and the tick stage
  have q0 : ∀ s, Q (MakeDomainCallback.tick_queue env sc s) := by
    intro s
    unfold MakeDomainCallback.tick_queue
    repeat' first
      | exact qdone _ _
      | (refine qemit _ _ ?_ ?_; focus (rcases hsite with rfl | rfl | rfl | rfl <;> simp))
      | split
  have q1 : ∀ s, Q (MakeDomainCallback.tick env sc s) := by
    intro s
    unfold MakeDomainCallback.tick
    repeat' first
      | exact q0 _
      | exact qdone _ _
      | (refine qemit _ _ ?_ ?_; focus (rcases hsite with rfl | rfl | rfl | rfl <;> simp))
      | split
  have q2 : ∀ s, Q (MakeDomainCallback.parent_post env sc s) := by
    intro s
    unfold MakeDomainCallback.parent_post
    repeat' first
      | exact q1 _
      | exact qdone _ _
      | (refine qemit _ _ ?_ ?_; focus (rcases hsite with rfl | rfl | rfl | rfl <;> simp))
      | split
  have q3 : ∀ s, Q (MakeDomainCallback.domain_exit env sc s) := by
    intro s
    unfold MakeDomainCallback.domain_exit MakeDomainCallback.mark_queue
    repeat' first
      | exact q2 _
      | exact qdone _ _
      | (refine qemit _ _ ?_ ?_; focus (rcases hsite with rfl | rfl | rfl | rfl <;> simp))
      | split
  -- the domain path up to the init hook
  have d4 : ∀ s, P (MakeDomainCallback.init_hook env sc s) := by
    intro s
    unfold MakeDomainCallback.init_hook
    dsimp only
    split
    · exact hlast _ _ (by simp [Event.site]) rfl
    · exact hemit _ _ (by simp [*]) (by simp [Event.site]) rfl (hPQ _ (q3 _))
  have d5 : ∀ s, P (MakeDomainCallback.domain_enter env sc s) := by
    intro s
    unfold MakeDomainCallback.domain_enter
    repeat' first
      | exact d4 _
      | exact hdone _ _
      | (refine hlast _ _ ?_ ?_ <;> [(simp [Event.site]; done); rfl])
      | (refine hemit _ _ ?_ ?_ ?_ ?_ <;> [(simp [*]; done); (simp [Event.site]; done); rfl; skip])
      | split
      | dsimp only
  have d6 : ∀ s, P (MakeDomainCallback env sc cb argv s) := by
    intro s
    unfold MakeDomainCallback MakeDomainCallback.parent_pre
    dsimp only
    repeat' first
      | exact d5 _
      | exact hdone _ _
      | (refine hlast _ _ ?_ ?_ <;> [(simp [Event.site]; done); rfl])
      | (refine hemit _ _ ?_ ?_ ?_ ?_ <;> [(simp [*]; done); (simp [Event.site]; done); rfl; skip])
      | split
  -- the path outside domains after the load hook: `cb`, unload and the tick stage
  have p0 : ∀ ret s, Q (MakeCallback.tick_queue env ret s) := by
    intro ret s
    unfold MakeCallback.tick_queue
    repeat' first
      | exact qdone _ _
      | (refine qemit _ _ ?_ ?_; focus (rcases hsite with rfl | rfl | rfl | rfl <;> simp))
      | split
  have p1 : ∀ ret s, Q (MakeCallback.tick env ret s) := by
    intro ret s
    unfold MakeCallback.tick
    repeat' first
      | exact p0 _ _
      | exact qdone _ _
      | (refine qemit _ _ ?_ ?_; focus (rcases hsite with rfl | rfl | rfl | rfl <;> simp))
      | split
  have p2 : ∀ ret s, Q (MakeCallback.unload env ret s) := by
    intro ret s
    unfold MakeCallback.unload
    repeat' first
      | exact p1 _ _
      | exact qdone _ _
      | (refine qemit _ _ ?_ ?_; focus (rcases hsite with rfl | rfl | rfl | rfl <;> simp))
      | split
  have p3 : ∀ s, Q (MakeCallback.invoke env cb argv s) := by
    intro s
    unfold MakeCallback.invoke
    repeat' first
      | exact p2 _ _
      | exact qdone _ _
      | (refine qemit _ _ ?_ ?_; focus (rcases hsite with rfl | rfl | rfl | rfl <;> simp))
      | split
  have m4 : ∀ s, P (MakeCallback.load env cb argv s) := by
    intro s
    unfold MakeCallback.load
    split
    · dsimp only
      split
      · exact hlast _ _ (by simp [Event.site]) rfl
      · exact hemit _ _ (by simp [*]) (by simp [Event.site]) rfl (hPQ _ (p3 _))
    · exact hPQ _ (p3 _)
  rcases hr with rfl | rfl
  · unfold MakeCallback
    split
    · exact d6 _
    · split
      · exact hdone _ _
      · exact m4 _
  · exact d6 _

/-- C12 at three dispatches: on the domain path with a pre hook that raises and
with an init hook that raises after the enter hook returned, and outside
domains with a load hook that raises. -/
theorem C12_early_hook_raise_aborts_witness :
    (Event.call CallSite.async_hooks_pre_function (Value.object 2) [] none ∈
        (MakeDomainCallback pre_raising_env exit_raising_scope (returning (Value.number 42))
          [] (idle_state 1)).trace ∧
      (MakeDomainCallback pre_raising_env exit_raising_scope (returning (Value.number 42))
          [] (idle_state 1)).trace.getLast? =
        some (Event.call CallSite.async_hooks_pre_function (Value.object 2) [] none)) ∧
    (Event.call CallSite.async_hooks_init_function (Value.object 1) [] none ∈
        (MakeDomainCallback init_raising_env live_scope (returning (Value.number 42))
          [] (idle_state 1)).trace ∧
      (MakeDomainCallback init_raising_env live_scope (returning (Value.number 42))
          [] (idle_state 1)).completion = Completion.returned Value.undefined) ∧
    (Event.call CallSite.async_listener_load_function (Value.object 0) [Value.object 1]
          none ∈
        (MakeCallback load_raising_env bare_scope (returning (Value.number 42))
          [] (listener_state 1)).trace ∧
      CallSite.cb ∉ calls (MakeCallback load_raising_env bare_scope
          (returning (Value.number 42)) [] (listener_state 1)).trace) :=
  ⟨⟨by decide,
      (C12_early_hook_raise_aborts pre_raising_env exit_raising_scope
        (returning (Value.number 42)) [] (idle_state 1) _ _ (Value.object 2) []
        (Or.inr rfl) (Or.inl rfl) (by decide)).2.2.1⟩,
    ⟨by decide,
      (C12_early_hook_raise_aborts init_raising_env live_scope
        (returning (Value.number 42)) [] (idle_state 1) _ _ (Value.object 1) []
        (Or.inr rfl) (Or.inr (Or.inr (Or.inl rfl))) (by decide)).1⟩,
    ⟨by decide,
      (C12_early_hook_raise_aborts load_raising_env bare_scope
        (returning (Value.number 42)) [] (listener_state 1) _ _ (Value.object 0)
        [Value.object 1] (Or.inl rfl) (Or.inr (Or.inr (Or.inr rfl))) (by decide)).2.1⟩⟩

/-- C13: when the unload hook raises in a dispatch, after `cb` returned a value,
the dispatch returns `undefined`; the call of the unload hook is its last step,
and no step of the tick stage is taken: no microtask run, no call of the tick
callback, no read or write of the tick info. -/
theorem C13_unload_raise_returns_undefined (env : Environment σ) (sc : DomainScope σ)
    (cb : JSFunction σ) (argv : List Value) (s : State σ) (r : Run σ)
    (recv : Value) (av : List Value)
    (hr : r = MakeCallback env sc cb argv s ∨ r = MakeDomainCallback env sc cb argv s)
    (hun : Event.call CallSite.async_listener_unload_function recv av none ∈ r.trace) :
    r.completion = Completion.returned Value.undefined ∧
    (∃ v, Event.call CallSite.cb s.self.object argv (some v) ∈ r.trace) ∧
    r.trace.getLast? = some (Event.call CallSite.async_listener_unload_function recv av none) ∧
    ∀ e ∈ r.trace, e.is_tick_step = false := by
  revert hun
  let P : Value → Run σ → Prop := fun o r =>
    Event.call CallSite.async_listener_unload_function recv av none ∈ r.trace →
      r.completion = Completion.returned Value.undefined ∧
      (∃ v, Event.call CallSite.cb o argv (some v) ∈ r.trace) ∧
      r.trace.getLast? =
        some (Event.call CallSite.async_listener_unload_function recv av none) ∧
      ∀ e ∈ r.trace, e.is_tick_step = false
  show P s.self.object r
  have hdone : ∀ o c (s : State σ), P o (Run.done c s) := by
    intro o c s h
    simp at h
  have hemit : ∀ o e (r : Run σ),
      e ≠ Event.call CallSite.async_listener_unload_function recv av none →
      e.is_tick_step = false → P o r → P o (emit e r) := by
    intro o e r hne hstep hP h
    simp only [emit_trace, List.mem_cons] at h
    rcases h with h | h
    · exact absurd h.symm hne
    · obtain ⟨h1, ⟨v, h2⟩, h3, h4⟩ := hP h
      refine ⟨h1, ⟨v, List.mem_cons_of_mem _ h2⟩, getLast?_emit h3, ?_⟩
      intro e1 he1
      rcases List.mem_cons.mp he1 with rfl | he1
      · exact hstep
      · exact h4 e1 he1
  -- after the call of `cb`: the unload hook and the tick stage
  have m2 : ∀ ret s,
      Event.call CallSite.async_listener_unload_function recv av none ∈
        (MakeCallback.unload env ret s).trace →
      (MakeCallback.unload env ret s).completion = Completion.returned Value.undefined ∧
      (MakeCallback.unload env ret s).trace.getLast? =
        some (Event.call CallSite.async_listener_unload_function recv av none) ∧
      ∀ e ∈ (MakeCallback.unload env ret s).trace, e.is_tick_step = false := by
    intro ret s
    have ht : ∀ s1, Event.call CallSite.async_listener_unload_function recv av none ∉
        (MakeCallback.tick env ret s1).trace := by
      intro s1 h
      have := MakeCallback.plain_tick_steps env ret s1 _ h
      simp [Event.is_tick_step] at this
    unfold MakeCallback.unload
    split
    · dsimp only
      split
      · intro h
        simp only [emit_trace, done_trace, List.mem_singleton] at h
        simp [← h, Event.is_tick_step]
      · intro h
        simp only [emit_trace, List.mem_cons] at h
        rcases h with h | h
        · simp_all
        · exact absurd h (ht _)
    · intro h
      exact absurd h (ht _)
  have m3 : ∀ s, P s.self.object (MakeCallback.invoke env cb argv s) := by
    intro s
    unfold MakeCallback.invoke
    dsimp only
    split
    · intro h
      simp at h
    · rename_i ret hret
      intro h
      simp only [emit_trace, List.mem_cons, Event.call.injEq, reduceCtorEq, false_and,
        false_or] at h
      obtain ⟨h1, h3, h4⟩ := m2 _ _ h
      refine ⟨h1, ⟨ret, by simp [hret]⟩, getLast?_emit h3, ?_⟩
      intro e1 he1
      rcases List.mem_cons.mp he1 with rfl | he1
      · rfl
      · exact h4 e1 he1
  have m4 : ∀ s, P s.self.object (MakeCallback.load env cb argv s) := by
    intro s
    unfold MakeCallback.load
    split
    · dsimp only
      apply hemit _ _ _ (by simp) (by rfl)
      split
      · exact hdone _ _ _
      · exact m3 (s.Call env.async_listener_load_function env.process_object
          [s.self.object]).2
    · exact m3 _
  have dom : P s.self.object (MakeDomainCallback env sc cb argv s) := by
    intro h
    have hm : CallSite.async_listener_unload_function ∈
        calls (MakeDomainCallback env sc cb argv s).trace :=
      List.mem_filterMap.mpr ⟨_, h, rfl⟩
    rcases MakeDomainCallback.domain_sites env sc cb argv s _ hm with
      h1 | h1 | h1 | h1 | h1 | h1 <;> simp at h1
  rcases hr with rfl | rfl
  · unfold MakeCallback
    split
    · exact dom
    · split
      · exact hdone _ _ _
      · exact m4 _
  · exact dom

/-- C13 at a resource with listener whose unload hook raises, one entry queued. -/
theorem C13_unload_raise_returns_undefined_witness :
    Event.call CallSite.async_listener_unload_function (Value.object 0) [Value.object 1]
        none ∈
      (MakeCallback unload_raising_env bare_scope (returning (Value.number 42)) []
        (listener_state 1)).trace ∧
    (MakeCallback unload_raising_env bare_scope (returning (Value.number 42)) []
        (listener_state 1)).completion = Completion.returned Value.undefined ∧
    (∃ v, Event.call CallSite.cb (listener_state 1).self.object [] (some v) ∈
      (MakeCallback unload_raising_env bare_scope (returning (Value.number 42)) []
        (listener_state 1)).trace) ∧
    (MakeCallback unload_raising_env bare_scope (returning (Value.number 42)) []
        (listener_state 1)).trace.getLast? =
      some (Event.call CallSite.async_listener_unload_function (Value.object 0)
        [Value.object 1] none) ∧
    ∀ e ∈ (MakeCallback unload_raising_env bare_scope (returning (Value.number 42)) []
        (listener_state 1)).trace, e.is_tick_step = false :=
  ⟨by decide,
    C13_unload_raise_returns_undefined unload_raising_env bare_scope
      (returning (Value.number 42)) [] (listener_state 1) _ (Value.object 0)
      [Value.object 1] (Or.inl rfl) (by decide)⟩

/-- C14, amended: in a dispatch that reaches the tick stage with `in_tick` false,
on either path, the queue length is read first; `RunMicrotasks` is called
exactly when that length is 0, once, and then before the second read of the
length, the one that decides whether the tick callback runs. When the queue is
not empty at the first read, the second read follows at once and the microtasks
are not run. -/
theorem C14_microtasks_only_on_empty_queue (env : Environment σ) (sc : DomainScope σ)
    (cb : JSFunction σ) (argv : List Value) (s : State σ) (r : Run σ)
    (hr : r = MakeCallback env sc cb argv s ∨ r = MakeDomainCallback env sc cb argv s)
    (htop : Event.read_in_tick false ∈ r.trace) :
    ∃ pre n m post,
      r.trace = pre ++ Event.read_in_tick false :: Event.read_length n ::
        ((if n = 0 then [Event.RunMicrotasks] else []) ++ Event.read_length m :: post) ∧
      Event.RunMicrotasks ∉ pre ∧ Event.RunMicrotasks ∉ post := by
  revert htop
  let P : Run σ → Prop := fun r =>
    Event.read_in_tick false ∈ r.trace →
      ∃ pre n m post,
        r.trace = pre ++ Event.read_in_tick false :: Event.read_length n ::
          ((if n = 0 then [Event.RunMicrotasks] else []) ++ Event.read_length m :: post) ∧
        Event.RunMicrotasks ∉ pre ∧ Event.RunMicrotasks ∉ post
  show P r
  have hdone : ∀ c (s : State σ), P (Run.done c s) := by
    intro c s h
    simp at h
  have hemit : ∀ e (r : Run σ), e ≠ Event.read_in_tick false → e ≠ Event.RunMicrotasks →
      P r → P (emit e r) := by
    intro e r hne hmt hP h
    simp only [emit_trace, List.mem_cons] at h
    rcases h with h | h
    · exact absurd h.symm hne
    · obtain ⟨pre, n, m, post, h1, h2, h3⟩ := hP h
      refine ⟨e :: pre, n, m, post, ?_, ?_, h3⟩
      · rw [emit_trace, h1]
        rfl
      · intro h4
        rcases List.mem_cons.mp h4 with h5 | h5
        · exact hmt h5.symm
        · exact h2 h5
  -- the tick stage of the domain path
  have d0 : ∀ s, ∃ post, (MakeDomainCallback.tick_queue env sc s).trace =
      Event.read_length s.tick.length :: post ∧ Event.RunMicrotasks ∉ post := by
    intro s
    unfold MakeDomainCallback.tick_queue
    split
    · exact ⟨_, rfl, by simp⟩
    · dsimp only
      split
      · exact ⟨_, rfl, by simp⟩
      · exact ⟨_, rfl, by simp⟩
  have d1 : ∀ s, P (MakeDomainCallback.tick env sc s) := by
    intro s h
    unfold MakeDomainCallback.tick at h ⊢
    by_cases hb : s.tick.in_tick = true
    · simp [hb] at h
    · by_cases hn : s.tick.length = 0
      · obtain ⟨post, h1, h2⟩ := d0 (s.RunMicrotasks env)
        refine ⟨[], 0, (s.RunMicrotasks env).tick.length, post, ?_, by simp, h2⟩
        simp [hb, hn, h1]
      · obtain ⟨post, h1, h2⟩ := d0 s
        refine ⟨[], s.tick.length, s.tick.length, post, ?_, by simp, h2⟩
        simp [hb, hn, h1]
  have d2 : ∀ s, P (MakeDomainCallback.parent_post env sc s) := by
    intro s
    unfold MakeDomainCallback.parent_post
    repeat' first
      | exact d1 _
      | exact hdone _ _
      | (refine hemit _ _ ?_ ?_ ?_ <;> [(simp; done); (simp; done); skip])
      | split
  have d3 : ∀ s, P (MakeDomainCallback.domain_exit env sc s) := by
    intro s
    unfold MakeDomainCallback.domain_exit MakeDomainCallback.mark_queue
    repeat' first
      | exact d2 _
      | exact hdone _ _
      | (refine hemit _ _ ?_ ?_ ?_ <;> [(simp; done); (simp; done); skip])
      | split
  have d4 : ∀ s, P (MakeDomainCallback.init_hook env sc s) := by
    intro s
    unfold MakeDomainCallback.init_hook
    repeat' first
      | exact d3 _
      | exact hdone _ _
      | (refine hemit _ _ ?_ ?_ ?_ <;> [(simp; done); (simp; done); skip])
      | split
  have d5 : ∀ s, P (MakeDomainCallback.domain_enter env sc s) := by
    intro s
    unfold MakeDomainCallback.domain_enter
    repeat' first
      | exact d4 _
      | exact hdone _ _
      | (refine hemit _ _ ?_ ?_ ?_ <;> [(simp; done); (simp; done); skip])
      | split
  have d6 : ∀ s, P (MakeDomainCallback env sc cb argv s) := by
    intro s
    unfold MakeDomainCallback MakeDomainCallback.parent_pre
    repeat' first
      | exact d5 _
      | exact hdone _ _
      | (refine hemit _ _ ?_ ?_ ?_ <;> [(simp; done); (simp; done); skip])
      | split
  -- the tick stage of the path outside domains
  have m0 : ∀ ret s, ∃ post, (MakeCallback.tick_queue env ret s).trace =
      Event.read_length s.tick.length :: post ∧ Event.RunMicrotasks ∉ post := by
    intro ret s
    unfold MakeCallback.tick_queue
    split
    · exact ⟨_, rfl, by simp⟩
    · exact ⟨_, rfl, by simp⟩
  have m1 : ∀ ret s, P (MakeCallback.tick env ret s) := by
    intro ret s h
    unfold MakeCallback.tick at h ⊢
    by_cases hb : s.tick.in_tick = true
    · simp [hb] at h
    · by_cases hn : s.tick.length = 0
      · obtain ⟨post, h1, h2⟩ := m0 ret (s.RunMicrotasks env)
        refine ⟨[], 0, (s.RunMicrotasks env).tick.length, post, ?_, by simp, h2⟩
        simp [hb, hn, h1]
      · obtain ⟨post, h1, h2⟩ := m0 ret s
        refine ⟨[], s.tick.length, s.tick.length, post, ?_, by simp, h2⟩
        simp [hb, hn, h1]
  have m2 : ∀ ret s, P (MakeCallback.unload env ret s) := by
    intro ret s
    unfold MakeCallback.unload
    repeat' first
      | exact m1 _ _
      | exact hdone _ _
      | (refine hemit _ _ ?_ ?_ ?_ <;> [(simp; done); (simp; done); skip])
      | split
  have m3 : ∀ s, P (MakeCallback.load env cb argv s) := by
    intro s
    unfold MakeCallback.load MakeCallback.invoke
    repeat' first
      | exact m2 _ _
      | exact hdone _ _
      | (refine hemit _ _ ?_ ?_ ?_ <;> [(simp; done); (simp; done); skip])
      | split
  rcases hr with rfl | rfl
  · unfold MakeCallback
    split
    · exact d6 _
    · split
      · exact hdone _ _
      · exact m3 _
  · exact d6 _

/-- C14 at a dispatch outside domains with an empty queue: the microtasks run
between the two reads of the length. -/
theorem C14_microtasks_only_on_empty_queue_witness :
    Event.read_in_tick false ∈
      (MakeCallback plain_env bare_scope (returning (Value.number 42)) []
        (idle_state 0)).trace ∧
    ∃ pre n m post,
      (MakeCallback plain_env bare_scope (returning (Value.number 42)) []
        (idle_state 0)).trace =
        pre ++ Event.read_in_tick false :: Event.read_length n ::
          ((if n = 0 then [Event.RunMicrotasks] else []) ++ Event.read_length m :: post) ∧
      Event.RunMicrotasks ∉ pre ∧ Event.RunMicrotasks ∉ post :=
  ⟨by decide,
    C14_microtasks_only_on_empty_queue plain_env bare_scope (returning (Value.number 42)) []
      (idle_state 0) _ (Or.inl rfl) (by decide)⟩

/-- C14 as stated fails: a top-level dispatch (`in_tick` false) that reaches the
tick stage with one entry queued calls the tick callback without having run
the microtasks. -/
theorem C14_no_microtasks_on_nonempty_queue :
    (MakeCallback plain_env bare_scope (returning (Value.number 42)) []
        (idle_state 1)).trace =
      [Event.call CallSite.cb (Value.object 1) [] (some (Value.number 42)),
        Event.read_in_tick false, Event.read_length 1, Event.read_length 1,
        Event.set_in_tick true,
        Event.call CallSite.tick_callback_function (Value.object 0) []
          (some Value.undefined),
        Event.set_in_tick false] ∧
    Event.RunMicrotasks ∉
      (MakeCallback plain_env bare_scope (returning (Value.number 42)) []
        (idle_state 1)).trace ∧
    Event.RunMicrotasks ∉
      (MakeDomainCallback domain_env bare_scope (returning (Value.number 42)) []
        (idle_state 1)).trace ∧
    CallSite.tick_callback_function ∈
      calls (MakeDomainCallback domain_env bare_scope (returning (Value.number 42)) []
        (idle_state 1)).trace := by
  decide

/-- The tick stage of the domain path, entered outside a drain with an empty
queue that is still empty after the microtask run: the index is set to 0 and
`ret` is returned. -/
theorem MakeDomainCallback.domain_tick_still_empty (env : Environment σ)
    (sc : DomainScope σ) (s : State σ) (h1 : s.tick.in_tick = false)
    (h2 : s.tick.length = 0) (h3 : (s.RunMicrotasks env).tick.length = 0) :
    MakeDomainCallback.tick env sc s =
      emit (Event.read_in_tick false) (emit (Event.read_length 0)
        (emit Event.RunMicrotasks (emit (Event.read_length 0) (emit (Event.set_index 0)
          (Run.done (Completion.returned sc.ret) ((s.RunMicrotasks env).set_index 0)))))) := by
  simp [MakeDomainCallback.tick, MakeDomainCallback.tick_queue, h1, h2, h3]

/-- The tick stage outside domains, entered outside a drain with an empty queue
that is still empty after the microtask run: the index is set to 0 and `ret`
is returned. -/
theorem MakeCallback.plain_tick_still_empty (env : Environment σ) (ret : Value)
    (s : State σ) (h1 : s.tick.in_tick = false) (h2 : s.tick.length = 0)
    (h3 : (s.RunMicrotasks env).tick.length = 0) :
    MakeCallback.tick env ret s =
      emit (Event.read_in_tick false) (emit (Event.read_length 0)
        (emit Event.RunMicrotasks (emit (Event.read_length 0) (emit (Event.set_index 0)
          (Run.done (Completion.returned ret) ((s.RunMicrotasks env).set_index 0)))))) := by
  simp [MakeCallback.tick, MakeCallback.tick_queue, h1, h2, h3]

/-- The tick stage, entered outside a drain with an empty queue into which the
microtask run puts entries, calls the tick callback, on both paths. -/
theorem tick_after_microtasks_enqueue (env : Environment σ) (sc : DomainScope σ)
    (ret : Value) (s : State σ) (h1 : s.tick.in_tick = false) (h2 : s.tick.length = 0)
    (h3 : (s.RunMicrotasks env).tick.length ≠ 0) :
    calls (MakeDomainCallback.tick env sc s).trace = [CallSite.tick_callback_function] ∧
    calls (MakeCallback.tick env ret s).trace = [CallSite.tick_callback_function] := by
  constructor
  · simp only [MakeDomainCallback.tick, MakeDomainCallback.tick_queue, h1, h2, h3]
    simp only [Bool.false_eq_true, ite_false, ite_true, emit_trace, calls_cons_read_in_tick,
      calls_cons_read_length, calls_cons_RunMicrotasks, calls_cons_set_in_tick, calls_cons_call]
    split <;> simp
  · simp [MakeCallback.tick, MakeCallback.tick_queue, h1, h2, h3]

/-- C15 fails on the code for the value returned on the domain path: a top-level
dispatch with an empty queue that stays empty runs the microtasks once, reads
the length again, sets the index to 0, leaves `in_tick` false and does not call
the tick callback, but it has not called `cb` and returns `ret` (7) instead of
the result of the callback (42). Outside domains the same dispatch returns 42.
When the microtask run enqueues an entry, the tick callback is called in the
same dispatch, on both paths. -/
theorem C15_empty_queue_domain_dispatch_returns_ret :
    (MakeDomainCallback domain_env ret_scope (returning (Value.number 42)) []
        (idle_state 0)).trace =
      [Event.call CallSite.async_hooks_init_function (Value.object 1) []
          (some Value.undefined),
        Event.read_in_tick false, Event.read_length 0, Event.RunMicrotasks,
        Event.read_length 0, Event.set_index 0] ∧
    (MakeDomainCallback domain_env ret_scope (returning (Value.number 42)) []
        (idle_state 0)).completion = Completion.returned (Value.number 7) ∧
    (MakeDomainCallback domain_env ret_scope (returning (Value.number 42)) []
        (idle_state 0)).state.tick = idle_tick 0 ∧
    (MakeCallback plain_env ret_scope (returning (Value.number 42)) []
        (idle_state 0)).completion = Completion.returned (Value.number 42) ∧
    calls (MakeDomainCallback microtask_env ret_scope (returning (Value.number 42)) []
        (idle_state 0)).trace =
      [CallSite.async_hooks_init_function, CallSite.tick_callback_function] ∧
    calls (MakeCallback microtask_env ret_scope (returning (Value.number 42)) []
        (idle_state 0)).trace = [CallSite.cb, CallSite.tick_callback_function] := by
  decide

/-- The identities of `a.append b` are those of `a` followed by those of `b`. -/
theorem Entries.ids_append (a b : Entries) : (a.append b).ids = a.ids ++ b.ids := by
  induction a with
  | nil => rfl
  | cons id raises inserts rest _ ih => simp [Entries.append, Entries.ids, ih]

theorem Entries.size_append (a b : Entries) : (a.append b).size = a.size + b.size := by
  induction a with
  | nil => simp [Entries.append, Entries.size]
  | cons id raises inserts rest _ ih => simp [Entries.append, Entries.size, ih]; omega

theorem Entries.count_append (a b : Entries) : (a.append b).count = a.count + b.count := by
  induction a with
  | nil => simp [Entries.append, Entries.count]
  | cons id raises inserts rest _ ih => simp [Entries.append, Entries.count, ih]; omega

theorem Entries.quiet_append (a b : Entries) :
    (a.append b).quiet = (a.quiet && b.quiet) := by
  induction a with
  | nil => simp [Entries.append, Entries.quiet]
  | cons id raises inserts rest _ ih =>
    simp [Entries.append, Entries.quiet, ih, Bool.and_assoc]

theorem Entries.append_nil (a : Entries) : a.append Entries.nil = a := by
  induction a with
  | nil => rfl
  | cons id raises inserts rest _ ih => simp [Entries.append, ih]

theorem Entries.count_eq_zero (a : Entries) : a.count = 0 ↔ a = Entries.nil := by
  cases a <;> simp [Entries.count]

/-- Running entries keeps the queue first-in first-out: the entries inserted are
the entries run followed by the entries pending, in this order. -/
theorem run_entries_fifo (fuel : Nat) (h : DeferredQueue)
    (hf : h.inserted = h.executed ++ h.entries.ids) :
    (run_entries fuel h).1.inserted =
      (run_entries fuel h).1.executed ++ (run_entries fuel h).1.entries.ids := by
  induction fuel generalizing h with
  | zero => exact hf
  | succ n ih =>
    unfold run_entries
    split
    · exact hf
    · rename_i id raises inserts rest hq
      dsimp only
      split
      · simp [hf, hq, Entries.ids]
      · apply ih
        simp [DeferredQueue.insert, hf, hq, Entries.ids, Entries.ids_append]

/-- With fuel for all pending entries and all they insert, running entries ends
with an empty queue unless an entry raised. -/
theorem run_entries_complete (fuel : Nat) (h : DeferredQueue)
    (hfuel : h.entries.size < fuel) (hr : (run_entries fuel h).2 = false) :
    (run_entries fuel h).1.entries = Entries.nil := by
  induction fuel generalizing h with
  | zero => omega
  | succ n ih =>
    unfold run_entries at hr ⊢
    split
    · assumption
    · rename_i id raises inserts rest hq
      rw [hq] at hr
      dsimp only at hr ⊢
      split
      · rename_i hraise
        simp [hraise] at hr
      · rename_i hraise
        simp only [hraise, Bool.false_eq_true, ite_false] at hr
        apply ih _ _ hr
        rw [hq, Entries.size] at hfuel
        simp only [DeferredQueue.insert, Entries.size_append]
        omega

/-- When no pending entry raises, nor any entry they insert, no entry raises
while the entries are run. -/
theorem run_entries_quiet (fuel : Nat) (h : DeferredQueue)
    (hq : h.entries.quiet = true) : (run_entries fuel h).2 = false := by
  induction fuel generalizing h with
  | zero => rfl
  | succ n ih =>
    unfold run_entries
    split
    · rfl
    · rename_i id raises inserts rest he
      rw [he] at hq
      simp only [Entries.quiet, Bool.and_eq_true, Bool.not_eq_true'] at hq
      dsimp only
      rw [if_neg (by simp [hq.1.1])]
      apply ih
      simp [DeferredQueue.insert, Entries.quiet_append, hq.1.2, hq.2]

/-- Running entries only adds to the record of inserted entries. -/
theorem run_entries_inserted (fuel : Nat) (h : DeferredQueue) :
    ∃ l, (run_entries fuel h).1.inserted = h.inserted ++ l := by
  induction fuel generalizing h with
  | zero => exact ⟨[], by simp [run_entries]⟩
  | succ n ih =>
    unfold run_entries
    split
    · exact ⟨[], by simp⟩
    · rename_i id raises inserts rest hq
      dsimp only
      split
      · exact ⟨[], by simp⟩
      · obtain ⟨l, hl⟩ := ih (DeferredQueue.insert
          { h with entries := rest, executed := h.executed ++ [id] } inserts)
        exact ⟨inserts.ids ++ l, by rw [hl]; simp [DeferredQueue.insert]⟩

/-- What the tick callback of the spec does to a first-in first-out queue. -/
theorem tick_callback_drains (recv : Value) (argv : List Value) (h : DeferredQueue)
    (t : TickInfo) (hf : h.inserted = h.executed ++ h.entries.ids) :
    (∃ l, (tick_callback recv argv h t).heap.inserted = h.inserted ++ l) ∧
    (tick_callback recv argv h t).heap.inserted =
      (tick_callback recv argv h t).heap.executed ++
        (tick_callback recv argv h t).heap.entries.ids ∧
    (h.entries.quiet = true → (tick_callback recv argv h t).heap.entries = Entries.nil) ∧
    (tick_callback recv argv h t).tick.in_tick = t.in_tick := by
  refine ⟨run_entries_inserted _ h, run_entries_fifo _ h hf, ?_, rfl⟩
  intro hq
  exact run_entries_complete _ h (Nat.lt_succ_self _) (run_entries_quiet _ h hq)

/-- The tick stage outside domains, over the queue of the spec. -/
theorem queue_tick_plain (b : Bool) (es0 : Entries) (ret : Value) (s : State DeferredQueue)
    (h1 : s.tick.in_tick = false) (h2 : s.tick.length = s.heap.entries.count)
    (hf : s.heap.inserted = s.heap.executed ++ s.heap.entries.ids) :
    (∃ l, (MakeCallback.tick (queue_env b es0) ret s).state.heap.inserted =
      s.heap.inserted ++ l) ∧
    (MakeCallback.tick (queue_env b es0) ret s).state.heap.inserted =
      (MakeCallback.tick (queue_env b es0) ret s).state.heap.executed ++
        (MakeCallback.tick (queue_env b es0) ret s).state.heap.entries.ids ∧
    (s.heap.entries.quiet = true →
      (MakeCallback.tick (queue_env b es0) ret s).state.heap.entries = Entries.nil) ∧
    (MakeCallback.tick (queue_env b es0) ret s).state.tick.in_tick = false := by
  by_cases hn : s.heap.entries.count = 0
  · have hnil := (Entries.count_eq_zero _).mp hn
    simp [MakeCallback.tick, MakeCallback.tick_queue, h1, h2, hn, State.RunMicrotasks,
      queue_env, State.set_index, hf, hnil, Entries.count, Entries.ids]
  · obtain ⟨g1, g2, g3, _⟩ := tick_callback_drains (Value.object 0) [] s.heap
      { s.tick with in_tick := true } hf
    simp only [MakeCallback.tick, MakeCallback.tick_queue, h1, h2, hn, queue_env,
      State.Call, State.set_in_tick, emit_state, done_state, Bool.false_eq_true, ite_false]
    exact ⟨g1, g2, g3, trivial⟩

/-- The tick stage of the domain path, over the queue of the spec. -/
theorem queue_tick_domain (b : Bool) (es0 : Entries) (sc : DomainScope DeferredQueue)
    (s : State DeferredQueue)
    (h1 : s.tick.in_tick = false) (h2 : s.tick.length = s.heap.entries.count)
    (hf : s.heap.inserted = s.heap.executed ++ s.heap.entries.ids) :
    (∃ l, (MakeDomainCallback.tick (queue_env b es0) sc s).state.heap.inserted =
      s.heap.inserted ++ l) ∧
    (MakeDomainCallback.tick (queue_env b es0) sc s).state.heap.inserted =
      (MakeDomainCallback.tick (queue_env b es0) sc s).state.heap.executed ++
        (MakeDomainCallback.tick (queue_env b es0) sc s).state.heap.entries.ids ∧
    (s.heap.entries.quiet = true →
      (MakeDomainCallback.tick (queue_env b es0) sc s).state.heap.entries = Entries.nil) ∧
    (MakeDomainCallback.tick (queue_env b es0) sc s).state.tick.in_tick = false := by
  by_cases hn : s.heap.entries.count = 0
  · have hnil := (Entries.count_eq_zero _).mp hn
    simp [MakeDomainCallback.tick, MakeDomainCallback.tick_queue, h1, h2, hn,
      State.RunMicrotasks, queue_env, State.set_index, hf, hnil, Entries.count, Entries.ids]
  · obtain ⟨g1, g2, g3, _⟩ := tick_callback_drains (Value.object 0) [] s.heap
      { s.tick with in_tick := true } hf
    simp only [MakeDomainCallback.tick, MakeDomainCallback.tick_queue, h1, h2, hn, queue_env,
      State.Call, State.set_in_tick, emit_state, done_state, Bool.false_eq_true, ite_false]
    split
    · exact ⟨g1, g2, g3, rfl⟩
    · exact ⟨g1, g2, g3, rfl⟩

@[simp] theorem queue_env_using_domains (b : Bool) (es : Entries) :
    (queue_env b es).using_domains = b := rfl

@[simp] theorem queue_env_context (b : Bool) (es : Entries) :
    (queue_env b es).context = (queue_env b es).current_context := rfl

@[simp] theorem queue_env_process_object (b : Bool) (es : Entries) :
    (queue_env b es).process_object = Value.object 0 := rfl

@[simp] theorem queue_env_load (b : Bool) (es : Entries) :
    (queue_env b es).async_listener_load_function = idling := rfl

@[simp] theorem queue_env_unload (b : Bool) (es : Entries) :
    (queue_env b es).async_listener_unload_function = idling := rfl

@[simp] theorem queue_env_init (b : Bool) (es : Entries) :
    (queue_env b es).async_hooks_init_function = inserting es := rfl

/-- C16, against the tick callback of the spec: in a top-level dispatch on a
first-in first-out queue with the entries `q` pending, in which the entries `es`
are inserted (by `cb` outside domains, by the init hook on the domain path), the
record of inserted entries starts with `q` and `es`, the entries run are an
initial part of the entries inserted, in the same order, each insertion run at
most once; when no entry raises, every entry inserted has run, exactly once and
in insertion order, and the queue is empty; `in_tick` is false at the end. -/
theorem C16_entries_run_in_insertion_order (self : AsyncWrap)
    (sc : DomainScope DeferredQueue) (ret : Value) (cb : JSFunction DeferredQueue)
    (q es : Entries) (argv : List Value) (r : Run DeferredQueue)
    (hr : r = MakeCallback (queue_env false Entries.nil) sc (inserting es) argv
          (queue_state self q) ∨
      r = MakeDomainCallback (queue_env true es)
          { parent := none, domain_v := none, ret := ret } cb argv (queue_state self q)) :
    (∃ l, r.state.heap.inserted = q.ids ++ es.ids ++ l) ∧
    (∃ l, r.state.heap.inserted = r.state.heap.executed ++ l) ∧
    ((q.append es).quiet = true →
      r.state.heap.executed = r.state.heap.inserted ∧
      r.state.heap.entries = Entries.nil) ∧
    r.state.tick.in_tick = false := by
  have fin : ∀ (h h1 : DeferredQueue) (t1 : TickInfo),
      h.entries = q.append es → h.inserted = q.ids ++ es.ids →
      (∃ l, h1.inserted = h.inserted ++ l) →
      h1.inserted = h1.executed ++ h1.entries.ids →
      (h.entries.quiet = true → h1.entries = Entries.nil) →
      t1.in_tick = false →
      (∃ l, h1.inserted = q.ids ++ es.ids ++ l) ∧
      (∃ l, h1.inserted = h1.executed ++ l) ∧
      ((q.append es).quiet = true →
        h1.executed = h1.inserted ∧ h1.entries = Entries.nil) ∧
      t1.in_tick = false := by
    intro h h1 t1 he hi g1 g2 g3 g4
    refine ⟨by rw [← hi]; exact g1, ⟨_, g2⟩, ?_, g4⟩
    intro hq
    have hn := g3 (by rw [he]; exact hq)
    refine ⟨?_, hn⟩
    rw [g2, hn]
    simp [Entries.ids]
  rcases hr with rfl | rfl
  · have key : (MakeCallback (queue_env false Entries.nil) sc (inserting es) argv
        (queue_state self q)).state =
        (MakeCallback.tick (queue_env false Entries.nil) Value.undefined
          { self := self,
            heap := (queue_state self q).heap.insert es,
            tick := { idle_tick q.count with length := q.count + es.count } }).state := by
      by_cases hl : has_async_listener self = true <;>
        simp [MakeCallback, MakeCallback.load, MakeCallback.invoke, MakeCallback.unload,
          State.Call, idling, inserting, queue_state, hl, idle_tick]
    rw [key]
    obtain ⟨g1, g2, g3, g4⟩ := queue_tick_plain false Entries.nil Value.undefined
      { self := self,
        heap := (queue_state self q).heap.insert es,
        tick := { idle_tick q.count with length := q.count + es.count } }
      rfl (by simp [queue_state, DeferredQueue.insert, Entries.count_append])
      (by simp [queue_state, DeferredQueue.insert, Entries.ids_append])
    exact fin _ _ _ rfl rfl g1 g2 g3 g4
  · have key : (MakeDomainCallback (queue_env true es)
        { parent := none, domain_v := none, ret := ret } cb argv (queue_state self q)).state =
        (MakeDomainCallback.tick (queue_env true es)
          { parent := none, domain_v := none, ret := ret }
          { self := { self with has_async_queue_ := true },
            heap := (queue_state self q).heap.insert es,
            tick := { idle_tick q.count with length := q.count + es.count } }).state := by
      simp [MakeDomainCallback, MakeDomainCallback.parent_pre, MakeDomainCallback.domain_enter,
        MakeDomainCallback.init_hook, MakeDomainCallback.domain_exit,
        MakeDomainCallback.mark_queue, MakeDomainCallback.parent_post,
        State.Call, inserting, queue_state, idle_tick]
    rw [key]
    obtain ⟨g1, g2, g3, g4⟩ := queue_tick_domain true es
      { parent := none, domain_v := none, ret := ret }
      { self := { self with has_async_queue_ := true },
        heap := (queue_state self q).heap.insert es,
        tick := { idle_tick q.count with length := q.count + es.count } }
      rfl (by simp [queue_state, DeferredQueue.insert, Entries.count_append])
      (by simp [queue_state, DeferredQueue.insert, Entries.ids_append])
    exact fin _ _ _ rfl rfl g1 g2 g3 g4

/-- C16 at a callback that inserts `d1` then `d2` into an empty queue: `d1` runs
before `d2`, each once. -/
theorem C16_entries_run_in_insertion_order_witness :
    (MakeCallback (queue_env false Entries.nil) bare_queue_scope (inserting d1_d2) []
        (queue_state plain_wrap Entries.nil)).state.heap.executed = [1, 2] ∧
    (MakeCallback (queue_env false Entries.nil) bare_queue_scope (inserting d1_d2) []
        (queue_state plain_wrap Entries.nil)).state.heap.inserted = [1, 2] ∧
    (MakeCallback (queue_env false Entries.nil) bare_queue_scope (inserting d1_d2) []
        (queue_state plain_wrap Entries.nil)).state.heap.entries = Entries.nil ∧
    (MakeCallback (queue_env false Entries.nil) bare_queue_scope (inserting d1_d2) []
        (queue_state plain_wrap Entries.nil)).state.tick.in_tick = false :=
  have h := C16_entries_run_in_insertion_order plain_wrap bare_queue_scope Value.undefined
    idling Entries.nil d1_d2 [] _ (Or.inl rfl)
  ⟨by decide, by decide, (h.2.2.1 (by decide)).2, h.2.2.2⟩

/-- C17: `MakeCallback(symbol, argc, argv)` and `MakeCallback(index, argc, argv)`
are `MakeCallback(f, argc, argv)` when the value of the property is a function
`f`: the same completion, state and trace. When the value is not a function the
`CHECK` fails: the run ends at once, in the state it started in, with an empty
trace. -/
theorem C17_keyed_dispatch (env : Environment σ) (sc : DomainScope σ)
    (Get : Key → Property σ) (symbol : String) (index : Nat) (argv : List Value)
    (s : State σ) :
    (∀ f, Get (Key.symbol symbol) = Property.function f →
      MakeCallback.by_symbol env sc Get symbol argv s = MakeCallback env sc f argv s) ∧
    (∀ f, Get (Key.index index) = Property.function f →
      MakeCallback.by_index env sc Get index argv s = MakeCallback env sc f argv s) ∧
    (∀ v, Get (Key.symbol symbol) = Property.other v →
      MakeCallback.by_symbol env sc Get symbol argv s =
        Run.done Completion.check_failed s) ∧
    (∀ v, Get (Key.index index) = Property.other v →
      MakeCallback.by_index env sc Get index argv s =
        Run.done Completion.check_failed s) := by
  refine ⟨?_, ?_, ?_, ?_⟩ <;> intro x hx <;>
    simp [MakeCallback.by_symbol, MakeCallback.by_index, hx]

/-- C17 at an object with a function under `"onread"` and under index 0, and
`undefined` under `"onwrite"` and under index 1. -/
theorem C17_keyed_dispatch_witness :
    MakeCallback.by_symbol plain_env bare_scope sample_Get "onread" [] (idle_state 0) =
      MakeCallback plain_env bare_scope (returning (Value.number 42)) [] (idle_state 0) ∧
    MakeCallback.by_index plain_env bare_scope sample_Get 0 [] (idle_state 0) =
      MakeCallback plain_env bare_scope (returning (Value.number 42)) [] (idle_state 0) ∧
    MakeCallback.by_symbol plain_env bare_scope sample_Get "onwrite" [] (idle_state 0) =
      Run.done Completion.check_failed (idle_state 0) ∧
    MakeCallback.by_index plain_env bare_scope sample_Get 1 [] (idle_state 0) =
      Run.done Completion.check_failed (idle_state 0) :=
  ⟨(C17_keyed_dispatch plain_env bare_scope sample_Get "onread" 0 [] (idle_state 0)).1 _ rfl,
    (C17_keyed_dispatch plain_env bare_scope sample_Get "onread" 0 [] (idle_state 0)).2.1 _ rfl,
    (C17_keyed_dispatch plain_env bare_scope sample_Get "onwrite" 1 [] (idle_state 0)).2.2.1
      _ rfl,
    (C17_keyed_dispatch plain_env bare_scope sample_Get "onwrite" 1 [] (idle_state 0)).2.2.2
      _ rfl⟩

/-- Setting the listener bit makes `has_async_listener` true, whatever the
other bits are. -/
theorem has_async_listener_of_or (self : AsyncWrap) :
    has_async_listener
      { self with async_flags_ := self.async_flags_ ||| HAS_ASYNC_LISTENER } = true := by
  simp [has_async_listener, HAS_ASYNC_LISTENER]

/-- A constructor run while `call_async_init_hook` is true, on storage
whose listener bit is clear, calls the init listener exactly once, on the
process object with the new object as its single argument; afterwards
`has_async_listener()` is true if and only if that call did not raise; and when
the call raised, no later dispatch outside domains calls the load or the unload
hook for the resource. -/
theorem AsyncWrap.constructed_on_clear_storage (env : Environment σ) (object : Value)
    (provider : Nat) (parent : Option Value) (s : State σ)
    (hflag : env.call_async_init_hook = true)
    (hstore : has_async_listener s.self = false) :
    (AsyncWrap.AsyncWrap env object provider parent s).2 =
      [Event.call CallSite.async_listener_run_function env.process_object [object]
        (env.async_listener_run_function env.process_object [object] s.heap s.tick).result] ∧
    (has_async_listener (AsyncWrap.AsyncWrap env object provider parent s).1.self = true ↔
      (env.async_listener_run_function env.process_object [object] s.heap s.tick).result ≠
        none) ∧
    ((env.async_listener_run_function env.process_object [object] s.heap s.tick).result =
        none →
      ∀ (env2 : Environment σ) (sc : DomainScope σ) (cb : JSFunction σ) (argv : List Value)
        (s2 : State σ), env2.using_domains = false →
        s2.self = (AsyncWrap.AsyncWrap env object provider parent s).1.self →
        CallSite.async_listener_load_function ∉
          calls (MakeCallback env2 sc cb argv s2).trace ∧
        CallSite.async_listener_unload_function ∉
          calls (MakeCallback env2 sc cb argv s2).trace) := by
  have hst : has_async_listener
      { s.self with object := object, has_async_queue_ := false,
                    provider_type_ := provider } = false := hstore
  cases hres : (env.async_listener_run_function env.process_object [object]
      s.heap s.tick).result with
  | none =>
    have hself : (AsyncWrap.AsyncWrap env object provider parent s).1.self =
        { s.self with object := object, has_async_queue_ := false,
                      provider_type_ := provider } := by
      simp [AsyncWrap.AsyncWrap, hflag, State.Call, hres]
    refine ⟨by simp [AsyncWrap.AsyncWrap, hflag, State.Call, hres], ?_, ?_⟩
    · rw [hself, hst]
      simp
    · intro _ env2 sc cb argv s2 hdom hs2
      exact MakeCallback.no_listener_no_hooks env2 sc cb argv s2 hdom
        (by rw [hs2, hself]; exact hst)
  | some v =>
    refine ⟨by simp [AsyncWrap.AsyncWrap, hflag, State.Call, hres], ?_, ?_⟩
    · have hself : (AsyncWrap.AsyncWrap env object provider parent s).1.self =
          { s.self with object := object, has_async_queue_ := false,
                        provider_type_ := provider,
                        async_flags_ := s.self.async_flags_ ||| HAS_ASYNC_LISTENER } := by
        simp [AsyncWrap.AsyncWrap, hflag, State.Call, hres]
      rw [hself]
      simp [has_async_listener, HAS_ASYNC_LISTENER]
    · intro h
      simp at h

/-- Two constructions on clear storage: one whose init listener returns, one
whose init listener raises. -/
theorem AsyncWrap.constructed_on_clear_storage_at_object_9 :
    listening_env.call_async_init_hook = true ∧
    has_async_listener (idle_state 0).self = false ∧
    (AsyncWrap.AsyncWrap listening_env (Value.object 9) 0 none (idle_state 0)).2 =
      [Event.call CallSite.async_listener_run_function (Value.object 0) [Value.object 9]
        (some Value.undefined)] ∧
    has_async_listener
      (AsyncWrap.AsyncWrap listening_env (Value.object 9) 0 none (idle_state 0)).1.self =
        true ∧
    (AsyncWrap.AsyncWrap listener_raising_env (Value.object 9) 0 none (idle_state 0)).2 =
      [Event.call CallSite.async_listener_run_function (Value.object 0) [Value.object 9]
        none] ∧
    ¬ (has_async_listener
      (AsyncWrap.AsyncWrap listener_raising_env (Value.object 9) 0 none
        (idle_state 0)).1.self = true) :=
  ⟨rfl, by decide,
    (AsyncWrap.constructed_on_clear_storage listening_env (Value.object 9) 0 none (idle_state 0)
      rfl (by decide)).1,
    (AsyncWrap.constructed_on_clear_storage listening_env (Value.object 9) 0 none (idle_state 0)
      rfl (by decide)).2.1.mpr (by decide),
    (AsyncWrap.constructed_on_clear_storage listener_raising_env (Value.object 9) 0 none
      (idle_state 0) rfl (by decide)).1,
    fun h => ((AsyncWrap.constructed_on_clear_storage listener_raising_env (Value.object 9) 0 none
      (idle_state 0) rfl (by decide)).2.1.mp h) rfl⟩

/-- C18 fails on the code: the constructor does not initialise `async_flags_`.
Run with `call_async_init_hook` true and an init listener that raises, on
storage whose listener bit is set, it calls the listener once with the new object
as single argument, the call raises, and `has_async_listener()` is true all the
same: a later dispatch outside domains calls the load and the unload hook for
the resource. On storage whose listener bit is clear the same construction
leaves `has_async_listener()` false. -/
theorem C18_raised_listener_still_instrumented :
    listener_raising_env.call_async_init_hook = true ∧
    (AsyncWrap.AsyncWrap listener_raising_env (Value.object 9) 0 none (listener_state 0)).2 =
      [Event.call CallSite.async_listener_run_function (Value.object 0) [Value.object 9]
        none] ∧
    has_async_listener
      (AsyncWrap.AsyncWrap listener_raising_env (Value.object 9) 0 none
        (listener_state 0)).1.self = true ∧
    (MakeCallback plain_env bare_scope (returning (Value.number 42)) []
        (AsyncWrap.AsyncWrap listener_raising_env (Value.object 9) 0 none
          (listener_state 0)).1).trace =
      [Event.call CallSite.async_listener_load_function (Value.object 0) [Value.object 9]
          (some Value.undefined),
        Event.call CallSite.cb (Value.object 9) [] (some (Value.number 42)),
        Event.call CallSite.async_listener_unload_function (Value.object 0)
          [Value.object 9] (some Value.undefined),
        Event.read_in_tick false, Event.read_length 0, Event.RunMicrotasks,
        Event.read_length 0, Event.set_index 0] ∧
    has_async_listener
      (AsyncWrap.AsyncWrap listener_raising_env (Value.object 9) 0 none
        (idle_state 0)).1.self = false := by
  decide

/-- C19: a dispatch through `MakeCallback` outside domains, whatever `parent`
and `domain_v` are, consists of steps of the tick stage (the tick-info reads
and writes, the microtask run, the tick callback), the call of `cb` and, on a
resource with listener only, the calls of the load and unload hooks. The pre and
post hooks of the parent and the enter and exit hooks of the domain are not
called, and no property of the domain (`disposed` included) is read. -/
theorem C19_plain_path_steps (env : Environment σ) (sc : DomainScope σ)
    (cb : JSFunction σ) (argv : List Value) (s : State σ)
    (hdom : env.using_domains = false) :
    (∀ e ∈ (MakeCallback env sc cb argv s).trace,
      e.is_tick_step = true ∨ e.site = some CallSite.cb ∨
      (has_async_listener s.self = true ∧
        (e.site = some CallSite.async_listener_load_function ∨
          e.site = some CallSite.async_listener_unload_function))) ∧
    CallSite.async_hooks_pre_function ∉ calls (MakeCallback env sc cb argv s).trace ∧
    CallSite.async_hooks_post_function ∉ calls (MakeCallback env sc cb argv s).trace ∧
    CallSite.enter ∉ calls (MakeCallback env sc cb argv s).trace ∧
    CallSite.exit ∉ calls (MakeCallback env sc cb argv s).trace ∧
    ∀ k, Event.domain_get k ∉ (MakeCallback env sc cb argv s).trace := by
  let P : Bool → Run σ → Prop := fun b r => ∀ e ∈ r.trace,
      e.is_tick_step = true ∨ e.site = some CallSite.cb ∨
      (b = true ∧
        (e.site = some CallSite.async_listener_load_function ∨
          e.site = some CallSite.async_listener_unload_function))
  have hdone : ∀ b c (s : State σ), P b (Run.done c s) := by
    intro b c s e he
    simp at he
  have hemit : ∀ b e (r : Run σ),
      (e.is_tick_step = true ∨ e.site = some CallSite.cb ∨
        (b = true ∧
          (e.site = some CallSite.async_listener_load_function ∨
            e.site = some CallSite.async_listener_unload_function))) →
      P b r → P b (emit e r) := by
    intro b e r he hP e1 he1
    rw [emit_trace] at he1
    rcases List.mem_cons.mp he1 with rfl | he1
    · exact he
    · exact hP e1 he1
  have m1 : ∀ b ret s, P b (MakeCallback.tick env ret s) := by
    intro b ret s e he
    exact Or.inl (MakeCallback.plain_tick_steps env ret s e he)
  have m2 : ∀ ret s, P (has_async_listener s.self) (MakeCallback.unload env ret s) := by
    intro ret s
    unfold MakeCallback.unload
    split
    · rename_i hl
      dsimp only
      apply hemit _ _ _ (by exact Or.inr (Or.inr ⟨hl, Or.inr rfl⟩))
      split
      · exact hdone _ _ _
      · exact m1 _ _ _
    · exact m1 _ _ _
  have m3 : ∀ s, P (has_async_listener s.self) (MakeCallback.invoke env cb argv s) := by
    intro s
    unfold MakeCallback.invoke
    dsimp only
    apply hemit _ _ _ (by exact Or.inr (Or.inl rfl))
    split
    · exact hdone _ _ _
    · exact m2 _ (s.Call cb s.self.object argv).2
  have m4 : ∀ s, P (has_async_listener s.self) (MakeCallback.load env cb argv s) := by
    intro s
    unfold MakeCallback.load
    split
    · rename_i hl
      dsimp only
      apply hemit _ _ _ (by exact Or.inr (Or.inr ⟨hl, Or.inl rfl⟩))
      split
      · exact hdone _ _ _
      · exact m3 (s.Call env.async_listener_load_function env.process_object
          [s.self.object]).2
    · exact m3 _
  have main : P (has_async_listener s.self) (MakeCallback env sc cb argv s) := by
    unfold MakeCallback
    simp only [hdom, Bool.false_eq_true, ite_false]
    split
    · exact hdone _ _ _
    · exact m4 _
  have hsite : ∀ x, x ∈ calls (MakeCallback env sc cb argv s).trace →
      x = CallSite.tick_callback_function ∨ x = CallSite.cb ∨
      x = CallSite.async_listener_load_function ∨
      x = CallSite.async_listener_unload_function := by
    intro x hx
    obtain ⟨e, he, hs⟩ := List.mem_filterMap.mp hx
    rcases main e he with h | h | ⟨_, h | h⟩
    · exact Or.inl (site_of_tick_step h hs)
    · rw [hs] at h
      exact Or.inr (Or.inl (Option.some.inj h))
    · rw [hs] at h
      exact Or.inr (Or.inr (Or.inl (Option.some.inj h)))
    · rw [hs] at h
      exact Or.inr (Or.inr (Or.inr (Option.some.inj h)))
  refine ⟨main, ?_, ?_, ?_, ?_, ?_⟩
  · intro h
    rcases hsite _ h with h1 | h1 | h1 | h1 <;> simp at h1
  · intro h
    rcases hsite _ h with h1 | h1 | h1 | h1 <;> simp at h1
  · intro h
    rcases hsite _ h with h1 | h1 | h1 | h1 <;> simp at h1
  · intro h
    rcases hsite _ h with h1 | h1 | h1 | h1 <;> simp at h1
  · intro k h
    rcases main _ h with h1 | h1 | ⟨_, h1 | h1⟩ <;> simp [Event.is_tick_step, Event.site] at h1

/-- C19 at a resource with listener, a parent and a disposed domain, outside
domains: the dispatch is load, `cb`, unload and the tick stage. -/
theorem C19_plain_path_steps_witness :
    plain_env.using_domains = false ∧
    disposed_scope.parent = some (Value.object 2) ∧
    calls (MakeCallback plain_env disposed_scope (returning (Value.number 42)) []
        (listener_state 1)).trace =
      [CallSite.async_listener_load_function, CallSite.cb,
        CallSite.async_listener_unload_function, CallSite.tick_callback_function] ∧
    CallSite.async_hooks_pre_function ∉
      calls (MakeCallback plain_env disposed_scope (returning (Value.number 42)) []
        (listener_state 1)).trace ∧
    ∀ k, Event.domain_get k ∉
      (MakeCallback plain_env disposed_scope (returning (Value.number 42)) []
        (listener_state 1)).trace :=
  ⟨rfl, rfl, by decide,
    (C19_plain_path_steps plain_env disposed_scope (returning (Value.number 42)) []
      (listener_state 1) rfl).2.1,
    (C19_plain_path_steps plain_env disposed_scope (returning (Value.number 42)) []
      (listener_state 1) rfl).2.2.2.2.2⟩

/-- C20: when `using_domains` is true, `MakeCallback(cb, argc, argv)` is
`MakeDomainCallback(cb, argc, argv)`: the same completion, the same state and the
same trace, so no step of the path outside domains (load, the call of `cb`,
unload) is taken in addition. -/
theorem C20_domains_delegate (env : Environment σ) (sc : DomainScope σ)
    (cb : JSFunction σ) (argv : List Value) (s : State σ)
    (hdom : env.using_domains = true) :
    MakeCallback env sc cb argv s = MakeDomainCallback env sc cb argv s ∧
    CallSite.async_listener_load_function ∉ calls (MakeCallback env sc cb argv s).trace ∧
    CallSite.cb ∉ calls (MakeCallback env sc cb argv s).trace ∧
    CallSite.async_listener_unload_function ∉ calls (MakeCallback env sc cb argv s).trace := by
  have h : MakeCallback env sc cb argv s = MakeDomainCallback env sc cb argv s := by
    simp [MakeCallback, hdom]
  have hs := MakeDomainCallback.domain_sites env sc cb argv s
  refine ⟨h, ?_, ?_, ?_⟩ <;> rw [h] <;> intro hm <;>
    rcases hs _ hm with h1 | h1 | h1 | h1 | h1 | h1 <;> simp at h1

/-- C20 at a resource with listener, a parent and a live domain. -/
theorem C20_domains_delegate_witness :
    domain_env.using_domains = true ∧
    MakeCallback domain_env exit_raising_scope (returning (Value.number 42)) []
        (listener_state 1) =
      MakeDomainCallback domain_env exit_raising_scope (returning (Value.number 42)) []
        (listener_state 1) ∧
    CallSite.async_listener_load_function ∉
      calls (MakeCallback domain_env exit_raising_scope (returning (Value.number 42)) []
        (listener_state 1)).trace ∧
    CallSite.cb ∉
      calls (MakeCallback domain_env exit_raising_scope (returning (Value.number 42)) []
        (listener_state 1)).trace ∧
    CallSite.async_listener_unload_function ∉
      calls (MakeCallback domain_env exit_raising_scope (returning (Value.number 42)) []
        (listener_state 1)).trace :=
  ⟨rfl, C20_domains_delegate domain_env exit_raising_scope (returning (Value.number 42)) []
    (listener_state 1) rfl⟩

end node
